import Mathlib

/-!
# afl-fuzz-misc.c : the quantity formatters DI, DF, DMS and DTD

A shallow embedding of `src/afl-fuzz-misc.c`.

* Buffers are lists of characters; a C string is the part of a buffer before
  its first NUL byte (`cstr`).  `snprintf`, `strncpy` and a byte store are
  modelled as writes into such a list.
* `u64` values are natural numbers, `s32` values are integers obtained by
  wrapping (`to_s32`).
* A finite `double` is the rational number it denotes.  Every arithmetic
  operation on doubles is the exact rational operation followed by one
  rounding to the nearest value with a 53-bit significand, ties to even
  (`RN`): IEEE-754 binary64 with the default rounding mode and each operation
  rounded once.  All operands met in this file are far inside the normal
  exponent range, so the exponent range itself is not modelled.
* `printf("%.pf")` prints the exact value of its argument rounded to `p`
  decimals, ties to even (`fmt_f`), as the C library does.
-/

namespace AflMisc

/-! ## Buffers and C strings -/

/-- The NUL byte that terminates a C string. -/
def NUL : Char := Char.ofNat 0

/-- The C string held in a buffer: the bytes before the first NUL. -/
def cstr (buf : List Char) : List Char :=
  buf.takeWhile (fun c => c != NUL)

/-- Store the bytes `bs` at the start of `buf`, leaving the rest untouched. -/
def poke (buf bs : List Char) : List Char :=
  bs ++ buf.drop bs.length

/-- Model of `snprintf(buf, len, ...)` where `text` is the fully formatted
output: at most `len - 1` characters are stored, followed by a NUL; with
`len = 0` nothing is stored. -/
def snprintf (buf : List Char) (len : Nat) (text : List Char) : List Char :=
  if len = 0 then buf else poke buf (text.take (len - 1) ++ [NUL])

/-- Model of `strncpy(buf, src, n)`: exactly `n` bytes are stored, the first
`min n (strlen src)` from `src`, the remaining ones NUL. -/
def strncpy (buf src : List Char) (n : Nat) : List Char :=
  poke buf (src.take n ++ List.replicate (n - src.length) NUL)

/-- Model of the store `buf[i] = c`. -/
def store (buf : List Char) (i : Nat) (c : Char) : List Char :=
  buf.set i c

/-! ## Numbers -/

/-- Round a rational to the nearest integer, ties to the even one. -/
def rhe (x : ℚ) : ℤ :=
  if x - ⌊x⌋ < 1 / 2 then ⌊x⌋
  else if 1 / 2 < x - ⌊x⌋ then ⌊x⌋ + 1
  else if ⌊x⌋ % 2 = 0 then ⌊x⌋ else ⌊x⌋ + 1

/-- Round a rational to the nearest binary64 value (53-bit significand,
round to nearest, ties to even). -/
def RN (x : ℚ) : ℚ :=
  if x = 0 then 0
  else (rhe (x / 2 ^ (Int.log 2 |x| - 52)) : ℚ) * 2 ^ (Int.log 2 |x| - 52)

/-- Conversion of a `u64` to `double`. -/
def u64_to_double (n : Nat) : ℚ := RN n

/-- Conversion of an integer constant (`int` or `long long`) to `double`. -/
def int_to_double (n : Nat) : ℚ := RN n

/-- The `double` product `a * b`. -/
def double_mul (a b : ℚ) : ℚ := RN (a * b)

/-- The `double` quotient `a / b`. -/
def double_div (a b : ℚ) : ℚ := RN (a / b)

/-- The `double` literal `99.95`. -/
def lit_99_95 : ℚ := RN (9995 / 100)

/-- The `double` literal `9.995`. -/
def lit_9_995 : ℚ := RN (9995 / 1000)

/-- The `double` literal `99.995`. -/
def lit_99_995 : ℚ := RN (99995 / 1000)

/-- The `double` literal `999.95`. -/
def lit_999_95 : ℚ := RN (99995 / 100)

/-- Conversion of a `u64` to `s32` (wrapping to 32 bits, two's complement). -/
def to_s32 (n : Nat) : Int :=
  if n % 2 ^ 32 < 2 ^ 31 then ((n % 2 ^ 32 : Nat) : Int)
  else ((n % 2 ^ 32 : Nat) : Int) - 2 ^ 32

/-- Conversion of an `s32` to `u64` (reduction modulo `2^64`). -/
def s32_to_u64 (i : Int) : Nat := (i % 2 ^ 64).toNat

/-- The `u64` difference `a - b` (wrapping). -/
def u64_sub (a b : Nat) : Nat := (((a : Int) - (b : Int)) % 2 ^ 64).toNat

/-! ## printf conversions -/

/-- Output of `%llu`: the decimal digits of a natural number. -/
def fmt_llu (n : Nat) : List Char := Nat.toDigits 10 n

/-- Output of `%d`. -/
def fmt_d (i : Int) : List Char :=
  if i < 0 then '-' :: Nat.toDigits 10 i.natAbs else Nat.toDigits 10 i.natAbs

/-- The `p` digits after the decimal point: `n` padded with zeros on the
left to width `p`. -/
def fmt_frac (p n : Nat) : List Char :=
  List.replicate (p - (Nat.toDigits 10 n).length) '0' ++ Nat.toDigits 10 n

/-- The number of units of `10^-p` that `%.pf` shows for the magnitude `x`. -/
def shown (p : Nat) (x : ℚ) : Nat := (rhe (|x| * 10 ^ p)).toNat

/-- Output of `%0.0pf` for a non-negative finite `double` (`p` is 1 or 2 in
this file): the value rounded to `p` decimals, ties to even. -/
def fmt_f (p : Nat) (x : ℚ) : List Char :=
  Nat.toDigits 10 (shown p x / 10 ^ p) ++
    (if p = 0 then [] else '.' :: fmt_frac p (shown p x % 10 ^ p))

/-! ## DI and DMS -/

/-- One `CHK_FORMAT(_divisor, _limit_mult, "%llu<suffix>", u64)` step: all
operands are integers.  The result is the buffer to return, if the tier
matches. -/
def CHK_FORMAT_u64 (buf : List Char) (len val divisor limit_mult : Nat)
    (suffix : List Char) : Option (List Char) :=
  if val < divisor * limit_mult then
    some (snprintf buf len (fmt_llu (val / divisor) ++ suffix))
  else none

/-- One `CHK_FORMAT(_divisor, _limit_mult, "%0.0pf<suffix>", double)` step:
`_limit_mult` is a `double`, so the bound is a `double` product, `val` is
converted to `double` for the comparison, and the value printed is the
`double` quotient. -/
def CHK_FORMAT_double (buf : List Char) (len val divisor : Nat) (limit_mult : ℚ)
    (p : Nat) (suffix : List Char) : Option (List Char) :=
  if u64_to_double val < double_mul (int_to_double divisor) limit_mult then
    some (snprintf buf len
      (fmt_f p (double_div (u64_to_double val) (int_to_double divisor)) ++ suffix))
  else none

/-- The literal `"infty"`. -/
def infty : List Char := ['i', 'n', 'f', 't', 'y']

/-- Describe integer: `u8 *DI(u8 *buf, size_t len, u64 val)`; the result is
the buffer after the call. -/
def DI (buf : List Char) (len val : Nat) : List Char :=
  (CHK_FORMAT_u64 buf len val 1 10000 []).getD <|
  (CHK_FORMAT_double buf len val 1000 lit_99_95 1 ['k']).getD <|
  (CHK_FORMAT_u64 buf len val 1000 1000 ['k']).getD <|
  (CHK_FORMAT_double buf len val (1000 * 1000) lit_9_995 2 ['M']).getD <|
  (CHK_FORMAT_double buf len val (1000 * 1000) lit_99_95 1 ['M']).getD <|
  (CHK_FORMAT_u64 buf len val (1000 * 1000) 1000 ['M']).getD <|
  (CHK_FORMAT_double buf len val (1000 * 1000 * 1000) lit_9_995 2 ['G']).getD <|
  (CHK_FORMAT_double buf len val (1000 * 1000 * 1000) lit_99_95 1 ['G']).getD <|
  (CHK_FORMAT_u64 buf len val (1000 * 1000 * 1000) 1000 ['G']).getD <|
  (CHK_FORMAT_double buf len val (1000 * 1000 * 1000 * 1000) lit_9_995 2 ['T']).getD <|
  (CHK_FORMAT_double buf len val (1000 * 1000 * 1000 * 1000) lit_99_95 1 ['T']).getD <|
  store (strncpy buf infty len) (len - 1) NUL

/-- Describe integer as memory size: `u8 *DMS(u8 *buf, size_t len, u64 val)`. -/
def DMS (buf : List Char) (len val : Nat) : List Char :=
  (CHK_FORMAT_u64 buf len val 1 10000 [' ', 'B']).getD <|
  (CHK_FORMAT_double buf len val 1024 lit_99_95 1 [' ', 'k', 'B']).getD <|
  (CHK_FORMAT_u64 buf len val 1024 1000 [' ', 'k', 'B']).getD <|
  (CHK_FORMAT_double buf len val (1024 * 1024) lit_9_995 2 [' ', 'M', 'B']).getD <|
  (CHK_FORMAT_double buf len val (1024 * 1024) lit_99_95 1 [' ', 'M', 'B']).getD <|
  (CHK_FORMAT_u64 buf len val (1024 * 1024) 1000 [' ', 'M', 'B']).getD <|
  (CHK_FORMAT_double buf len val (1024 * 1024 * 1024) lit_9_995 2 [' ', 'G', 'B']).getD <|
  (CHK_FORMAT_double buf len val (1024 * 1024 * 1024) lit_99_95 1 [' ', 'G', 'B']).getD <|
  (CHK_FORMAT_u64 buf len val (1024 * 1024 * 1024) 1000 [' ', 'G', 'B']).getD <|
  (CHK_FORMAT_double buf len val (1024 * 1024 * 1024 * 1024) lit_9_995 2
    [' ', 'T', 'B']).getD <|
  (CHK_FORMAT_double buf len val (1024 * 1024 * 1024 * 1024) lit_99_95 1
    [' ', 'T', 'B']).getD <|
  store (strncpy buf infty (len - 1)) (len - 1) NUL

/-! ## DF -/

/-- A `double` argument: a finite value given by its sign bit and magnitude,
an infinity, or a NaN. -/
inductive F64 where
  | finite (neg : Bool) (mag : ℚ)
  | inf (neg : Bool)
  | nan (neg : Bool)

/-- The comparison `val < c` of a `double` with a finite positive `double`
constant; false on NaN. -/
def F64.lt (v : F64) (c : ℚ) : Bool :=
  match v with
  | .finite neg mag => decide ((if neg then -mag else mag) < c)
  | .inf neg => neg
  | .nan _ => false

/-- Output of `%0.0pf` for any `double`. -/
def F64.fmt (p : Nat) (v : F64) : List Char :=
  match v with
  | .finite neg mag => (if neg then ['-'] else []) ++ fmt_f p mag
  | .inf neg => (if neg then ['-'] else []) ++ ['i', 'n', 'f']
  | .nan neg => (if neg then ['-'] else []) ++ ['n', 'a', 'n']

/-- The conversion `(u64)val`: truncation toward zero when the truncated value
fits in a `u64`.  Otherwise C leaves the behaviour undefined; `ub` stands for
the 64-bit value the platform then delivers. -/
def F64.to_u64 (ub : Nat) (v : F64) : Nat :=
  match v with
  | .finite neg mag =>
      if neg then (if |mag| < 1 then 0 else ub % 2 ^ 64)
      else if ⌊|mag|⌋₊ < 2 ^ 64 then ⌊|mag|⌋₊ else ub % 2 ^ 64
  | _ => ub % 2 ^ 64

/-- Describe float: `u8 *DF(u8 *buf, size_t len, double val)`. -/
def DF (ub : Nat) (buf : List Char) (len : Nat) (val : F64) : List Char :=
  if val.lt lit_99_995 then snprintf buf len (val.fmt 2)
  else if val.lt lit_999_95 then snprintf buf len (val.fmt 1)
  else DI buf len (val.to_u64 ub)

/-! ## DTD -/

/-- Describe time delta: `u8 *DTD(u8 *buf, size_t len, u64 cur_ms, u64 event_ms)`.
`int_buf` is the initial content of the local 16-byte array. -/
def DTD (int_buf buf : List Char) (len cur_ms event_ms : Nat) : List Char :=
  let buf1 :=
    if event_ms = 0 then
      snprintf buf len ['n', 'o', 'n', 'e', ' ', 's', 'e', 'e', 'n', ' ', 'y', 'e', 't']
    else buf
  let delta := u64_sub cur_ms event_ms
  let t_d := to_s32 (delta / 1000 / 60 / 60 / 24)
  let t_h := to_s32 ((delta / 1000 / 60 / 60) % 24)
  let t_m := to_s32 ((delta / 1000 / 60) % 60)
  let t_s := to_s32 ((delta / 1000) % 60)
  let int_buf1 := DI int_buf 16 (s32_to_u64 t_d)
  snprintf buf1 len
    (cstr int_buf1 ++ [' ', 'd', 'a', 'y', 's', ',', ' '] ++
      fmt_d t_h ++ [' ', 'h', 'r', 's', ',', ' '] ++
      fmt_d t_m ++ [' ', 'm', 'i', 'n', ',', ' '] ++
      fmt_d t_s ++ [' ', 's', 'e', 'c'])

/-! ## The tier table of the specification -/

/-- A row of the tier table of the specification: the exclusive upper bound
of the tier, the divisor, the unit suffix and the number of decimals shown. -/
structure Tier where
  bound : Nat
  divisor : Nat
  suffix : List Char
  decimals : Nat

/-- The decimal tier table as the specification states it. -/
def decimalTiers : List Tier :=
  [⟨10000, 1, [], 0⟩,
   ⟨99950, 1000, ['k'], 1⟩,
   ⟨1000000, 1000, ['k'], 0⟩,
   ⟨9995000, 1000000, ['M'], 2⟩,
   ⟨99950000, 1000000, ['M'], 1⟩,
   ⟨1000000000, 1000000, ['M'], 0⟩,
   ⟨9995000000, 1000000000, ['G'], 2⟩,
   ⟨99950000000, 1000000000, ['G'], 1⟩,
   ⟨1000000000000, 1000000000, ['G'], 0⟩,
   ⟨9995000000000, 1000000000000, ['T'], 2⟩,
   ⟨99950000000000, 1000000000000, ['T'], 1⟩]

/-- The text of a row for `val`: `val` divided by the divisor of the row, as
an integer quotient when the row shows no decimals and as a `double` quotient
printed with the decimals of the row otherwise, followed by the suffix. -/
def Tier.render (t : Tier) (val : Nat) : List Char :=
  (if t.decimals = 0 then fmt_llu (val / t.divisor)
   else fmt_f t.decimals (double_div (u64_to_double val) (int_to_double t.divisor))) ++
    t.suffix

/-- The table-driven cascade of the specification: the first row whose bound
exceeds `val` renders it; with no such row the overflow marker is the text. -/
def cascade (tiers : List Tier) (val : Nat) : List Char :=
  match tiers.find? (fun t => decide (val < t.bound)) with
  | some t => t.render val
  | none => infty

/-- A row of the parameterised tier table: the exclusive upper bound (a
rational number), the divisor, the unit suffix and the number of decimals. -/
structure UnitTier where
  bound : ℚ
  divisor : Nat
  suffix : List Char
  decimals : Nat

/-- The tier table of the specification for a base `b` and a list of five unit
suffixes: bounds 10,000; 99.95 b; 1000 b; 9.995 b^2; 99.95 b^2; 1000 b^2;
9.995 b^3; 99.95 b^3; 1000 b^3; 9.995 b^4; 99.95 b^4. -/
def unitTiers (b : Nat) (sfx : List (List Char)) : List UnitTier :=
  [⟨10000, 1, sfx.getD 0 [], 0⟩,
   ⟨9995 / 100 * (b : ℚ), b, sfx.getD 1 [], 1⟩,
   ⟨1000 * (b : ℚ), b, sfx.getD 1 [], 0⟩,
   ⟨9995 / 1000 * (b : ℚ) ^ 2, b ^ 2, sfx.getD 2 [], 2⟩,
   ⟨9995 / 100 * (b : ℚ) ^ 2, b ^ 2, sfx.getD 2 [], 1⟩,
   ⟨1000 * (b : ℚ) ^ 2, b ^ 2, sfx.getD 2 [], 0⟩,
   ⟨9995 / 1000 * (b : ℚ) ^ 3, b ^ 3, sfx.getD 3 [], 2⟩,
   ⟨9995 / 100 * (b : ℚ) ^ 3, b ^ 3, sfx.getD 3 [], 1⟩,
   ⟨1000 * (b : ℚ) ^ 3, b ^ 3, sfx.getD 3 [], 0⟩,
   ⟨9995 / 1000 * (b : ℚ) ^ 4, b ^ 4, sfx.getD 4 [], 2⟩,
   ⟨9995 / 100 * (b : ℚ) ^ 4, b ^ 4, sfx.getD 4 [], 1⟩]

/-- The text of a row for `val`: the integer quotient by the divisor when the
row shows no decimals, the `double` quotient printed with the decimals of the
row otherwise, followed by the suffix. -/
def UnitTier.render (t : UnitTier) (val : Nat) : List Char :=
  (if t.decimals = 0 then fmt_llu (val / t.divisor)
   else fmt_f t.decimals (double_div (u64_to_double val) (int_to_double t.divisor))) ++
    t.suffix

/-- The first row whose bound exceeds `val` renders it; with no such row the
overflow marker is the text. -/
def cascadeOf : List UnitTier → Nat → List Char
  | [], _ => infty
  | t :: ts, val => if (val : ℚ) < t.bound then t.render val else cascadeOf ts val

/-- The one cascade function of the specification, parameterised by the base
and the five unit suffixes. -/
def unitCascade (b : Nat) (sfx : List (List Char)) (val : Nat) : List Char :=
  cascadeOf (unitTiers b sfx) val

/-! ## Auxiliary definitions -/

/-- The ten decimal digit characters. -/
def decChars : List Char := ['0', '1', '2', '3', '4', '5', '6', '7', '8', '9']

/-- The text `DI` formats for `val`, before truncation to the buffer, with
every tier bound evaluated (`DI_cases` relates it to `DI`). -/
def DI_text (val : Nat) : List Char :=
  if val < 10000 then fmt_llu val
  else if val < 99950 then fmt_f 1 (RN ((val : ℚ) / ((1000 : Nat) : ℚ))) ++ ['k']
  else if val < 1000000 then fmt_llu (val / 1000) ++ ['k']
  else if val < 9995000 then fmt_f 2 (RN ((val : ℚ) / ((1000000 : Nat) : ℚ))) ++ ['M']
  else if val < 99950000 then fmt_f 1 (RN ((val : ℚ) / ((1000000 : Nat) : ℚ))) ++ ['M']
  else if val < 1000000000 then fmt_llu (val / 1000000) ++ ['M']
  else if val < 9995000000 then
    fmt_f 2 (RN ((val : ℚ) / ((1000000000 : Nat) : ℚ))) ++ ['G']
  else if val < 99950000000 then
    fmt_f 1 (RN ((val : ℚ) / ((1000000000 : Nat) : ℚ))) ++ ['G']
  else if val < 1000000000000 then fmt_llu (val / 1000000000) ++ ['G']
  else if val < 9995000000000 then
    fmt_f 2 (RN ((val : ℚ) / ((1000000000000 : Nat) : ℚ))) ++ ['T']
  else if val < 99950000000000 then
    fmt_f 1 (RN ((val : ℚ) / ((1000000000000 : Nat) : ℚ))) ++ ['T']
  else infty

/-- The three facts the truncation law rests on, for a formatter `F` seen as
a function of the buffer and its capacity: for some text independent of both,
the C string left is the text cut to `len - 1` characters, the buffer keeps its
size, and no byte from index `len` on is changed. -/
def Lawful (F : List Char → Nat → List Char) : Prop :=
  ∃ text : List Char, ∀ (buf : List Char) (len : Nat), 1 ≤ len → len ≤ buf.length →
    cstr (F buf len) = text.take (len - 1) ∧ (F buf len).length = buf.length ∧
      (F buf len).drop len = buf.drop len

/-- The field `t_d` that `DTD` computes from `delta`. -/
def DTD_t_d (delta : Nat) : Int := to_s32 (delta / 1000 / 60 / 60 / 24)

/-- The field `t_h` that `DTD` computes from `delta`. -/
def DTD_t_h (delta : Nat) : Int := to_s32 ((delta / 1000 / 60 / 60) % 24)

/-- The field `t_m` that `DTD` computes from `delta`. -/
def DTD_t_m (delta : Nat) : Int := to_s32 ((delta / 1000 / 60) % 60)

/-- The field `t_s` that `DTD` computes from `delta`. -/
def DTD_t_s (delta : Nat) : Int := to_s32 ((delta / 1000) % 60)

/-- The text the final `snprintf` of `DTD` formats for a given `delta`, the
days field being read back from the internal buffer (`DTD_eq` relates it to
`DTD`). -/
def DTD_text (int_buf : List Char) (delta : Nat) : List Char :=
  cstr (DI int_buf 16 (s32_to_u64 (DTD_t_d delta))) ++ [' ', 'd', 'a', 'y', 's', ',', ' '] ++
    fmt_d (DTD_t_h delta) ++ [' ', 'h', 'r', 's', ',', ' '] ++
    fmt_d (DTD_t_m delta) ++ [' ', 'm', 'i', 'n', ',', ' '] ++
    fmt_d (DTD_t_s delta) ++ [' ', 's', 'e', 'c']

/-- The text `DMS` formats for `val`, before truncation to the buffer, with
every tier bound replaced by the least integer not below it (`DMS_cases`
relates it to `DMS`). -/
def DMS_text (val : Nat) : List Char :=
  if val < 10000 then
    fmt_llu val ++ [' ', 'B']
  else if val < 102349 then
    fmt_f 1 (RN ((val : ℚ) / ((1024 : Nat) : ℚ))) ++ [' ', 'k', 'B']
  else if val < 1024000 then
    fmt_llu (val / 1024) ++ [' ', 'k', 'B']
  else if val < 10480518 then
    fmt_f 2 (RN ((val : ℚ) / ((1048576 : Nat) : ℚ))) ++ [' ', 'M', 'B']
  else if val < 104805172 then
    fmt_f 1 (RN ((val : ℚ) / ((1048576 : Nat) : ℚ))) ++ [' ', 'M', 'B']
  else if val < 1048576000 then
    fmt_llu (val / 1048576) ++ [' ', 'M', 'B']
  else if val < 10732049531 then
    fmt_f 2 (RN ((val : ℚ) / ((1073741824 : Nat) : ℚ))) ++ [' ', 'G', 'B']
  else if val < 107320495309 then
    fmt_f 1 (RN ((val : ℚ) / ((1073741824 : Nat) : ℚ))) ++ [' ', 'G', 'B']
  else if val < 1073741824000 then
    fmt_llu (val / 1073741824) ++ [' ', 'G', 'B']
  else if val < 10989618719622 then
    fmt_f 2 (RN ((val : ℚ) / ((1099511627776 : Nat) : ℚ))) ++ [' ', 'T', 'B']
  else if val < 109896187196212 then
    fmt_f 1 (RN ((val : ℚ) / ((1099511627776 : Nat) : ℚ))) ++ [' ', 'T', 'B']
  else infty

/-! ## Buffer lemmas -/

theorem cstr_cons_nul (rest : List Char) : cstr (NUL :: rest) = [] := by
  simp [cstr, List.takeWhile]

theorem cstr_cons_of_ne (a : Char) (rest : List Char) (h : a ≠ NUL) :
    cstr (a :: rest) = a :: cstr rest := by
  have h1 : (a != NUL) = true := by simpa using h
  simp [cstr, List.takeWhile_cons, h1]

theorem cstr_append (t rest : List Char) (h : ∀ a ∈ t, a ≠ NUL) :
    cstr (t ++ rest) = t ++ cstr rest := by
  induction t with
  | nil => rfl
  | cons a t ih =>
    have ha : a ≠ NUL := h a (List.mem_cons_self a t)
    have ht : ∀ b ∈ t, b ≠ NUL := fun b hb => h b (List.mem_cons_of_mem a hb)
    rw [List.cons_append, cstr_cons_of_ne a _ ha, ih ht, List.cons_append]

theorem cstr_append_nul (t rest : List Char) (h : ∀ a ∈ t, a ≠ NUL) :
    cstr (t ++ NUL :: rest) = t := by
  rw [cstr_append t _ h, cstr_cons_nul, List.append_nil]

theorem cstr_length_le (l : List Char) : (cstr l).length ≤ l.length := by
  induction l with
  | nil => simp [cstr]
  | cons a l ih =>
    by_cases h : a = NUL
    · subst h; rw [cstr_cons_nul]; simp
    · rw [cstr_cons_of_ne a l h]; simp; exact ih

theorem cstr_no_nul (l : List Char) : ∀ a ∈ cstr l, a ≠ NUL := by
  intro a ha
  have := List.mem_takeWhile_imp ha
  simpa using this

/-- Storing a NUL at index `i` cuts the C string to at most `i` characters. -/
theorem cstr_store_nul (l : List Char) (i : Nat) :
    cstr (store l i NUL) = (cstr l).take i := by
  induction l generalizing i with
  | nil => simp [store, cstr]
  | cons a l ih =>
    cases i with
    | zero => simp [store, cstr_cons_nul]
    | succ i =>
      have hs : store (a :: l) (i + 1) NUL = a :: store l i NUL := by simp [store]
      by_cases h : a = NUL
      · subst h; rw [hs, cstr_cons_nul, cstr_cons_nul]; rfl
      · rw [hs, cstr_cons_of_ne a _ h, cstr_cons_of_ne a _ h, ih i, List.take_succ_cons]

theorem poke_length (buf bs : List Char) (h : bs.length ≤ buf.length) :
    (poke buf bs).length = buf.length := by
  simp [poke]; omega

theorem poke_drop (buf bs : List Char) (c : Nat) (h : bs.length ≤ c) :
    (poke buf bs).drop c = buf.drop c := by
  unfold poke
  rw [List.drop_append_eq_append_drop, List.drop_of_length_le h, List.nil_append, List.drop_drop]
  congr 1; omega

theorem snprintf_eq (buf : List Char) (len : Nat) (text : List Char) (hlen : 1 ≤ len) :
    snprintf buf len text =
      text.take (len - 1) ++ NUL :: buf.drop ((text.take (len - 1)).length + 1) := by
  unfold snprintf poke
  rw [if_neg (by omega)]
  simp

theorem cstr_snprintf (buf : List Char) (len : Nat) (text : List Char) (hlen : 1 ≤ len)
    (h : ∀ a ∈ text, a ≠ NUL) : cstr (snprintf buf len text) = text.take (len - 1) := by
  rw [snprintf_eq buf len text hlen]
  exact cstr_append_nul _ _ (fun a ha => h a (List.mem_of_mem_take ha))

theorem snprintf_length (buf : List Char) (len : Nat) (text : List Char)
    (hb : len ≤ buf.length) : (snprintf buf len text).length = buf.length := by
  unfold snprintf
  split
  · rfl
  · apply poke_length
    simp; omega

theorem snprintf_drop (buf : List Char) (len : Nat) (text : List Char) :
    (snprintf buf len text).drop len = buf.drop len := by
  unfold snprintf
  split
  · rfl
  · apply poke_drop
    simp; omega

theorem get_append_nul (t r : List Char) : (t ++ NUL :: r).get? t.length = some NUL := by
  induction t with
  | nil => rfl
  | cons a t ih => simpa using ih

theorem snprintf_nul (buf : List Char) (len : Nat) (text : List Char) (hlen : 1 ≤ len) :
    (snprintf buf len text).get? (text.take (len - 1)).length = some NUL := by
  rw [snprintf_eq buf len text hlen]
  exact get_append_nul _ _

theorem strncpy_length (buf src : List Char) (n : Nat) (hb : n ≤ buf.length) :
    (strncpy buf src n).length = buf.length := by
  unfold strncpy
  apply poke_length
  simp; omega

theorem strncpy_drop (buf src : List Char) (n c : Nat) (h : n ≤ c) :
    (strncpy buf src n).drop c = buf.drop c := by
  unfold strncpy
  apply poke_drop
  simp; omega

theorem store_length (l : List Char) (i : Nat) (c : Char) : (store l i c).length = l.length := by
  simp [store]

theorem store_drop (l : List Char) (i n : Nat) (c : Char) (h : i < n) :
    (store l i c).drop n = l.drop n := by
  unfold store
  induction l generalizing i n with
  | nil => simp
  | cons a l ih =>
    cases n with
    | zero => omega
    | succ n =>
      cases i with
      | zero => simp
      | succ i => simp; exact ih i n (by omega)

theorem store_get (l : List Char) (i : Nat) (c : Char) (h : i < l.length) :
    (store l i c).get? i = some c := by
  simp [store, h]

/-- After `strncpy(buf, src, n)` the first `m ≤ n` characters of the C string
in the buffer are those of `src`. -/
theorem cstr_strncpy_take (buf src : List Char) (n m : Nat) (hm : m ≤ n)
    (h : ∀ a ∈ src, a ≠ NUL) : (cstr (strncpy buf src n)).take m = src.take m := by
  unfold strncpy poke
  by_cases hn : n ≤ src.length
  · have h0 : n - src.length = 0 := by omega
    rw [h0, List.replicate_zero, List.append_nil,
      cstr_append _ _ (fun a ha => h a (List.mem_of_mem_take ha))]
    rw [List.take_append_of_le_length (by simp; omega), List.take_take]
    congr 1; omega
  · have h1 : src.take n = src := List.take_of_length_le (by omega)
    obtain ⟨k, hk⟩ : ∃ k, n - src.length = k + 1 := ⟨n - src.length - 1, by omega⟩
    rw [h1, hk, List.replicate_succ, List.append_assoc, cstr_append _ _ h, List.cons_append,
      cstr_cons_nul, List.append_nil]

/-! ## Rounding lemmas -/

theorem rhe_sub_le (x : ℚ) : (rhe x : ℚ) - x ≤ 1 / 2 ∧ x - rhe x ≤ 1 / 2 := by
  unfold rhe
  have h1 := Int.floor_le x
  have h2 := Int.lt_floor_add_one x
  split_ifs with a b c
  · constructor <;> linarith
  · push_cast; constructor <;> linarith
  · have : x - ⌊x⌋ = 1 / 2 := le_antisymm (not_lt.mp b) (not_lt.mp a)
    constructor <;> linarith
  · have : x - ⌊x⌋ = 1 / 2 := le_antisymm (not_lt.mp b) (not_lt.mp a)
    push_cast; constructor <;> linarith

theorem rhe_intCast (z : ℤ) : rhe (z : ℚ) = z := by
  unfold rhe
  simp

theorem le_rhe (x : ℚ) (z : ℤ) (h : (z : ℚ) - 1 / 2 < x) : z ≤ rhe x := by
  have h1 := (rhe_sub_le x).2
  have h2 : ((z - 1 : ℤ) : ℚ) < (rhe x : ℚ) := by push_cast; linarith
  have h3 : z - 1 < rhe x := by exact_mod_cast h2
  omega

theorem rhe_le (x : ℚ) (z : ℤ) (h : x < (z : ℚ) + 1 / 2) : rhe x ≤ z := by
  have h1 := (rhe_sub_le x).1
  have h2 : (rhe x : ℚ) < ((z + 1 : ℤ) : ℚ) := by push_cast; linarith
  have h3 : rhe x < z + 1 := by exact_mod_cast h2
  omega

theorem rhe_eq (x : ℚ) (z : ℤ) (h1 : (z : ℚ) - 1 / 2 < x) (h2 : x < (z : ℚ) + 1 / 2) :
    rhe x = z :=
  le_antisymm (rhe_le x z h2) (le_rhe x z h1)

theorem RN_of_pos (x : ℚ) (hx : 0 < x) :
    RN x = (rhe (x / 2 ^ (Int.log 2 x - 52)) : ℚ) * 2 ^ (Int.log 2 x - 52) := by
  unfold RN
  rw [if_neg hx.ne', abs_of_pos hx]

theorem log_eq_of (x : ℚ) (e : ℤ) (h1 : 2 ^ e ≤ x) (h2 : x < 2 ^ (e + 1)) :
    Int.log 2 x = e := by
  have hx : 0 < x := lt_of_lt_of_le (by positivity) h1
  have a : e ≤ Int.log 2 x := (Int.zpow_le_iff_le_log (by norm_num) hx).mp (by exact_mod_cast h1)
  have b : Int.log 2 x < e + 1 := (Int.lt_zpow_iff_log_lt (by norm_num) hx).mp (by exact_mod_cast h2)
  omega

theorem RN_eq_of (x : ℚ) (e m : ℤ) (h1 : 2 ^ e ≤ x) (h2 : x < 2 ^ (e + 1))
    (h3 : (m : ℚ) - 1 / 2 < x / 2 ^ (e - 52)) (h4 : x / 2 ^ (e - 52) < (m : ℚ) + 1 / 2) :
    RN x = (m : ℚ) * 2 ^ (e - 52) := by
  have hx : 0 < x := lt_of_lt_of_le (by positivity) h1
  rw [RN_of_pos x hx, log_eq_of x e h1 h2, rhe_eq _ m h3 h4]

/-- The rounding error of `RN` on a positive value below `2^(E+1)` is at most
half a unit in the last place of that binade. -/
theorem RN_sub_le (x : ℚ) (E : ℤ) (hx : 0 < x) (hE : x < 2 ^ (E + 1)) :
    |RN x - x| ≤ 2 ^ (E - 53) := by
  have he : Int.log 2 x < E + 1 :=
    (Int.lt_zpow_iff_log_lt (by norm_num) hx).mp (by exact_mod_cast hE)
  have hu : (0 : ℚ) < 2 ^ (Int.log 2 x - 52) := by positivity
  have hr := rhe_sub_le (x / 2 ^ (Int.log 2 x - 52))
  have hxe : x = x / 2 ^ (Int.log 2 x - 52) * 2 ^ (Int.log 2 x - 52) := by
    field_simp
  have hle : (2 : ℚ) ^ (Int.log 2 x - 52) ≤ 2 ^ (E - 52) :=
    zpow_le_zpow_right₀ (by norm_num) (by omega)
  have h53 : (2 : ℚ) ^ (E - 53) = 2 ^ (E - 52) / 2 := by
    rw [show E - 53 = E - 52 - 1 by ring, zpow_sub_one₀ (by norm_num)]; ring
  rw [RN_of_pos x hx, h53, abs_le]
  constructor
  · nlinarith [hr.1, hr.2]
  · nlinarith [hr.1, hr.2]

theorem RN_natCast (n : ℕ) (h : n < 2 ^ 53) : RN (n : ℚ) = n := by
  rcases Nat.eq_zero_or_pos n with h0 | hpos
  · subst h0; simp [RN]
  · have hx : (0 : ℚ) < n := by exact_mod_cast hpos
    have hlog : Int.log 2 (n : ℚ) = (Nat.log 2 n : ℤ) := Int.log_natCast 2 n
    have hl : Nat.log 2 n < 53 := Nat.log_lt_of_lt_pow hpos.ne' h
    obtain ⟨k, hk⟩ : ∃ k : ℕ, (52 : ℤ) - Nat.log 2 n = k := ⟨52 - Nat.log 2 n, by omega⟩
    have hexp : (Nat.log 2 n : ℤ) - 52 = -(k : ℤ) := by omega
    rw [RN_of_pos _ hx, hlog, hexp, zpow_neg, zpow_natCast]
    have : (n : ℚ) / (2 ^ k)⁻¹ = ((n * 2 ^ k : ℕ) : ℤ) := by
      push_cast; field_simp
    rw [this, rhe_intCast]
    push_cast
    field_simp

theorem RN_ge_zpow (x : ℚ) (hx : 0 < x) : (2 : ℚ) ^ Int.log 2 x ≤ RN x := by
  have hu : (0 : ℚ) < 2 ^ (Int.log 2 x - 52) := by positivity
  have h1 : (2 : ℚ) ^ Int.log 2 x ≤ x := by
    have := Int.zpow_log_le_self (b := 2) (by norm_num) hx
    exact_mod_cast this
  have h2 : (2 : ℚ) ^ Int.log 2 x = 2 ^ (52 : ℤ) * 2 ^ (Int.log 2 x - 52) := by
    rw [← zpow_add₀ (by norm_num)]; congr 1; ring
  have h3 : (((2 ^ 52 : ℕ) : ℤ) : ℚ) ≤ x / 2 ^ (Int.log 2 x - 52) := by
    rw [le_div_iff₀ hu]
    have : (((2 ^ 52 : ℕ) : ℤ) : ℚ) = 2 ^ (52 : ℤ) := by norm_num
    rw [this, ← h2]; exact h1
  have h4 : ((2 ^ 52 : ℕ) : ℤ) ≤ rhe (x / 2 ^ (Int.log 2 x - 52)) :=
    le_rhe _ _ (by linarith)
  have h5 : (((2 ^ 52 : ℕ) : ℤ) : ℚ) ≤ (rhe (x / 2 ^ (Int.log 2 x - 52)) : ℚ) := by
    exact_mod_cast h4
  rw [RN_of_pos x hx, h2]
  have : (((2 ^ 52 : ℕ) : ℤ) : ℚ) = 2 ^ (52 : ℤ) := by norm_num
  rw [this] at h5
  exact mul_le_mul_of_nonneg_right h5 hu.le

theorem RN_natCast_ge (n : ℕ) (h : 2 ^ 53 ≤ n) : (2 : ℚ) ^ 53 ≤ RN (n : ℚ) := by
  have hx : (0 : ℚ) < n := by
    have : 0 < n := lt_of_lt_of_le (by norm_num) h
    exact_mod_cast this
  have h1 : ((2 : ℕ) : ℚ) ^ (53 : ℤ) ≤ (n : ℚ) := by
    have : ((2 ^ 53 : ℕ) : ℚ) ≤ (n : ℚ) := by exact_mod_cast h
    have e : ((2 : ℕ) : ℚ) ^ (53 : ℤ) = ((2 ^ 53 : ℕ) : ℚ) := by norm_num
    rw [e]; exact this
  have h2 : (53 : ℤ) ≤ Int.log 2 (n : ℚ) := (Int.zpow_le_iff_le_log (by norm_num) hx).mp h1
  have h3 : (2 : ℚ) ^ (53 : ℤ) ≤ 2 ^ Int.log 2 (n : ℚ) :=
    zpow_le_zpow_right₀ (by norm_num) h2
  have h4 := RN_ge_zpow (n : ℚ) hx
  have h5 : (2 : ℚ) ^ (53 : ℤ) = 2 ^ 53 := by norm_num
  rw [← h5]
  exact le_trans h3 h4

/-! ## The constants -/

theorem lit_99_95_eq : lit_99_95 = 7033355980557517 / 70368744177664 := by
  unfold lit_99_95
  rw [RN_eq_of (9995 / 100) 6 7033355980557517 (by norm_num) (by norm_num) (by norm_num)
    (by norm_num)]
  norm_num

theorem lit_9_995_eq : lit_9_995 = 5626684784446013 / 562949953421312 := by
  unfold lit_9_995
  rw [RN_eq_of (9995 / 1000) 3 5626684784446013 (by norm_num) (by norm_num) (by norm_num)
    (by norm_num)]
  norm_num

theorem int_to_double_eq (n : ℕ) (h : n < 2 ^ 53) : int_to_double n = n := RN_natCast n h

theorem bound_k_1 : double_mul (int_to_double 1000) lit_99_95 = 99950 := by
  rw [int_to_double_eq 1000 (by norm_num), lit_99_95_eq]
  unfold double_mul
  rw [RN_eq_of _ 16 (99950 * 2 ^ 36) (by norm_num) (by norm_num) (by norm_num) (by norm_num)]
  norm_num

theorem bound_M_2 : double_mul (int_to_double 1000000) lit_9_995 = 9995000 := by
  rw [int_to_double_eq 1000000 (by norm_num), lit_9_995_eq]
  unfold double_mul
  rw [RN_eq_of _ 23 (9995000 * 2 ^ 29) (by norm_num) (by norm_num) (by norm_num) (by norm_num)]
  norm_num

theorem bound_M_1 : double_mul (int_to_double 1000000) lit_99_95 = 99950000 := by
  rw [int_to_double_eq 1000000 (by norm_num), lit_99_95_eq]
  unfold double_mul
  rw [RN_eq_of _ 26 (99950000 * 2 ^ 26) (by norm_num) (by norm_num) (by norm_num) (by norm_num)]
  norm_num

theorem bound_G_2 : double_mul (int_to_double 1000000000) lit_9_995 = 9995000000 := by
  rw [int_to_double_eq 1000000000 (by norm_num), lit_9_995_eq]
  unfold double_mul
  rw [RN_eq_of _ 33 (9995000000 * 2 ^ 19) (by norm_num) (by norm_num) (by norm_num) (by norm_num)]
  norm_num

theorem bound_G_1 : double_mul (int_to_double 1000000000) lit_99_95 = 99950000000 := by
  rw [int_to_double_eq 1000000000 (by norm_num), lit_99_95_eq]
  unfold double_mul
  rw [RN_eq_of _ 36 (99950000000 * 2 ^ 16) (by norm_num) (by norm_num) (by norm_num) (by norm_num)]
  norm_num

theorem bound_T_2 : double_mul (int_to_double 1000000000000) lit_9_995 = 9995000000000 := by
  rw [int_to_double_eq 1000000000000 (by norm_num), lit_9_995_eq]
  unfold double_mul
  rw [RN_eq_of _ 43 (9995000000000 * 2 ^ 9) (by norm_num) (by norm_num) (by norm_num) (by norm_num)]
  norm_num

theorem bound_T_1 : double_mul (int_to_double 1000000000000) lit_99_95 = 99950000000000 := by
  rw [int_to_double_eq 1000000000000 (by norm_num), lit_99_95_eq]
  unfold double_mul
  rw [RN_eq_of _ 46 (99950000000000 * 2 ^ 6) (by norm_num) (by norm_num) (by norm_num) (by norm_num)]
  norm_num


/-! ## Tier selection -/

theorem u64_lt_bound_iff (val bound : ℕ) (thr : ℚ) (h : thr = bound) (hb : bound ≤ 2 ^ 53) :
    u64_to_double val < thr ↔ val < bound := by
  unfold u64_to_double
  rw [h]
  by_cases hv : val < 2 ^ 53
  · rw [RN_natCast val hv]; exact Nat.cast_lt
  · have h1 := RN_natCast_ge val (by omega)
    have h2 : (bound : ℚ) ≤ 2 ^ 53 := by exact_mod_cast hb
    constructor
    · intro h3; linarith
    · intro h3; omega

theorem double_div_eq (val d : ℕ) (hv : val < 2 ^ 53) (hd : d < 2 ^ 53) :
    double_div (u64_to_double val) (int_to_double d) = RN ((val : ℚ) / (d : ℚ)) := by
  unfold double_div u64_to_double int_to_double
  rw [RN_natCast val hv, RN_natCast d hd]

theorem CHK_FORMAT_double_eq (buf : List Char) (len val d : ℕ) (lm : ℚ) (p : ℕ)
    (s : List Char) (bound : ℕ) (h : double_mul (int_to_double d) lm = bound)
    (hb : bound ≤ 2 ^ 53) (hd : d < 2 ^ 53) :
    CHK_FORMAT_double buf len val d lm p s =
      if val < bound then some (snprintf buf len (fmt_f p (RN ((val : ℚ) / (d : ℚ))) ++ s))
      else none := by
  unfold CHK_FORMAT_double
  by_cases hv : val < bound
  · rw [if_pos ((u64_lt_bound_iff val bound _ h hb).mpr hv), if_pos hv,
      double_div_eq val d (by omega) hd]
  · rw [if_neg (fun hc => hv ((u64_lt_bound_iff val bound _ h hb).mp hc)), if_neg hv]

theorem ite_some_getD {α : Type} (c : Prop) [Decidable c] (a b : α) :
    (if c then some a else none).getD b = if c then a else b := by
  split <;> rfl

/-- The cascade of `DI` with every tier bound evaluated: below the last bound
`DI` prints `DI_text val`, from there on it copies the overflow marker. -/
theorem DI_cases (buf : List Char) (len val : ℕ) :
    DI buf len val =
      if val < 99950000000000 then snprintf buf len (DI_text val)
      else store (strncpy buf infty len) (len - 1) NUL := by
  unfold DI
  rw [CHK_FORMAT_double_eq buf len val 1000 lit_99_95 1 _ 99950 bound_k_1 (by norm_num)
      (by norm_num),
    CHK_FORMAT_double_eq buf len val (1000 * 1000) lit_9_995 2 _ 9995000 bound_M_2
      (by norm_num) (by norm_num),
    CHK_FORMAT_double_eq buf len val (1000 * 1000) lit_99_95 1 _ 99950000 bound_M_1
      (by norm_num) (by norm_num),
    CHK_FORMAT_double_eq buf len val (1000 * 1000 * 1000) lit_9_995 2 _ 9995000000 bound_G_2
      (by norm_num) (by norm_num),
    CHK_FORMAT_double_eq buf len val (1000 * 1000 * 1000) lit_99_95 1 _ 99950000000 bound_G_1
      (by norm_num) (by norm_num),
    CHK_FORMAT_double_eq buf len val (1000 * 1000 * 1000 * 1000) lit_9_995 2 _ 9995000000000
      bound_T_2 (by norm_num) (by norm_num),
    CHK_FORMAT_double_eq buf len val (1000 * 1000 * 1000 * 1000) lit_99_95 1 _ 99950000000000
      bound_T_1 (by norm_num) (by norm_num)]
  unfold CHK_FORMAT_u64
  simp only [ite_some_getD, Nat.reduceMul, Nat.div_one, List.append_nil]
  by_cases h : val < 99950000000000
  · rw [if_pos h]
    unfold DI_text
    simp only [apply_ite (snprintf buf len), h, if_true]
  · rw [if_neg h, if_neg (show ¬ val < 10000 by omega), if_neg (show ¬ val < 99950 by omega),
      if_neg (show ¬ val < 1000000 by omega), if_neg (show ¬ val < 9995000 by omega),
      if_neg (show ¬ val < 99950000 by omega), if_neg (show ¬ val < 1000000000 by omega),
      if_neg (show ¬ val < 9995000000 by omega), if_neg (show ¬ val < 99950000000 by omega),
      if_neg (show ¬ val < 1000000000000 by omega), if_neg (show ¬ val < 9995000000000 by omega),
      if_neg (show ¬ val < 99950000000000 by omega)]

theorem DI_text_of_ge (val : ℕ) (h : 99950000000000 ≤ val) : DI_text val = infty := by
  unfold DI_text
  rw [if_neg (show ¬ val < 10000 by omega), if_neg (show ¬ val < 99950 by omega),
    if_neg (show ¬ val < 1000000 by omega), if_neg (show ¬ val < 9995000 by omega),
    if_neg (show ¬ val < 99950000 by omega), if_neg (show ¬ val < 1000000000 by omega),
    if_neg (show ¬ val < 9995000000 by omega), if_neg (show ¬ val < 99950000000 by omega),
    if_neg (show ¬ val < 1000000000000 by omega), if_neg (show ¬ val < 9995000000000 by omega),
    if_neg (show ¬ val < 99950000000000 by omega)]

/-! ## Decimal digits -/

theorem digitChar_mod_mem (n : ℕ) : Nat.digitChar (n % 10) ∈ decChars := by
  have h : n % 10 < 10 := Nat.mod_lt n (by norm_num)
  interval_cases n % 10 <;> decide

theorem toDigitsCore_mem (f : ℕ) : ∀ (n : ℕ) (acc : List Char),
    (∀ a ∈ acc, a ∈ decChars) → ∀ a ∈ Nat.toDigitsCore 10 f n acc, a ∈ decChars := by
  induction f with
  | zero => intro n acc h a ha; exact h a (by simpa [Nat.toDigitsCore] using ha)
  | succ f ih =>
    intro n acc h a ha
    have hc : ∀ b ∈ Nat.digitChar (n % 10) :: acc, b ∈ decChars := by
      intro b hb
      rcases List.mem_cons.mp hb with rfl | hb
      · exact digitChar_mod_mem n
      · exact h b hb
    simp only [Nat.toDigitsCore] at ha
    split at ha
    · exact hc a ha
    · exact ih _ _ hc a ha

theorem toDigits_mem (n : ℕ) : ∀ a ∈ Nat.toDigits 10 n, a ∈ decChars :=
  toDigitsCore_mem (n + 1) n [] (by simp)

theorem decChars_ne_nul : ∀ a ∈ decChars, a ≠ NUL := by decide

theorem decChars_ne_i : ∀ a ∈ decChars, a ≠ 'i' := by decide

theorem toDigits_ne_nil (n : ℕ) : Nat.toDigits 10 n ≠ [] := by
  unfold Nat.toDigits
  simp only [Nat.toDigitsCore]
  split
  · simp
  · intro h
    have := Nat.toDigitsCore_lens_eq 10 n (n / 10) (Nat.digitChar (n % 10)) []
    rw [h] at this
    simp at this

theorem toDigits_length_le (n e : ℕ) (h : n < 10 ^ e) (he : 0 < e) :
    (Nat.toDigits 10 n).length ≤ e :=
  Nat.toDigitsCore_length 10 (by norm_num) (n + 1) n e h he

theorem fmt_llu_no_nul (n : ℕ) : ∀ a ∈ fmt_llu n, a ≠ NUL :=
  fun a ha => decChars_ne_nul a (toDigits_mem n a ha)

theorem fmt_frac_mem (p n : ℕ) : ∀ a ∈ fmt_frac p n, a ∈ decChars := by
  intro a ha
  unfold fmt_frac at ha
  rcases List.mem_append.mp ha with h | h
  · rw [(List.mem_replicate.mp h).2]; decide
  · exact toDigits_mem n a h

theorem fmt_f_no_nul (p : ℕ) (x : ℚ) : ∀ a ∈ fmt_f p x, a ≠ NUL := by
  intro a ha
  unfold fmt_f at ha
  rcases List.mem_append.mp ha with h | h
  · exact decChars_ne_nul a (toDigits_mem _ a h)
  · split at h
    · simp at h
    · rcases List.mem_cons.mp h with rfl | h
      · decide
      · exact decChars_ne_nul a (fmt_frac_mem _ _ a h)

set_option maxRecDepth 100000 in
theorem shape_2 : ∀ n : ℕ, n < 1000 → 100 ≤ n →
    Nat.toDigits 10 (n / 10 ^ 2) ++ '.' :: fmt_frac 2 (n % 10 ^ 2) =
      [Nat.digitChar (n / 100), '.', Nat.digitChar (n / 10 % 10), Nat.digitChar (n % 10)] := by
  decide

set_option maxRecDepth 100000 in
theorem shape_1 : ∀ n : ℕ, n < 1000 → 100 ≤ n →
    Nat.toDigits 10 (n / 10 ^ 1) ++ '.' :: fmt_frac 1 (n % 10 ^ 1) =
      [Nat.digitChar (n / 100), Nat.digitChar (n / 10 % 10), '.', Nat.digitChar (n % 10)] := by
  decide

/-! ## The number a fractional tier shows -/

theorem RN_pos (x : ℚ) (hx : 0 < x) : 0 < RN x :=
  lt_of_lt_of_le (by positivity) (RN_ge_zpow x hx)

theorem shown_bounds (p : ℕ) (v : ℚ) (E : ℤ) (A B : ℕ) (hv : 0 < v) (hE : v < 2 ^ (E + 1))
    (hA : (A : ℚ) - 1 / 2 < (v - 2 ^ (E - 53)) * 10 ^ p)
    (hB : (v + 2 ^ (E - 53)) * 10 ^ p < (B : ℚ) + 1 / 2) :
    A ≤ shown p (RN v) ∧ shown p (RN v) ≤ B := by
  have herr := abs_le.mp (RN_sub_le v E hv hE)
  have hpos := RN_pos v hv
  have h10 : (0 : ℚ) < 10 ^ p := by positivity
  have h1 : (v - 2 ^ (E - 53)) * 10 ^ p ≤ RN v * 10 ^ p :=
    mul_le_mul_of_nonneg_right (by linarith [herr.1]) h10.le
  have h2 : RN v * 10 ^ p ≤ (v + 2 ^ (E - 53)) * 10 ^ p :=
    mul_le_mul_of_nonneg_right (by linarith [herr.2]) h10.le
  have hA1 : ((A : ℤ) : ℚ) - 1 / 2 < RN v * 10 ^ p := by push_cast; linarith
  have hB1 : RN v * 10 ^ p < ((B : ℤ) : ℚ) + 1 / 2 := by push_cast; linarith
  have hA2 := le_rhe _ _ hA1
  have hB2 := rhe_le _ _ hB1
  unfold shown
  rw [abs_of_pos hpos]
  omega

/-- Bounds on the number shown by a fractional tier with divisor `d` for the
values `lo ≤ val ≤ hi`. -/
theorem tier_shown (p val d lo hi : ℕ) (E : ℤ) (A B : ℕ) (hd : 0 < d) (h0 : 0 < lo)
    (hlo : lo ≤ val) (hhi : val ≤ hi) (hE : (hi : ℚ) / d < 2 ^ (E + 1))
    (hA : (A : ℚ) - 1 / 2 < ((lo : ℚ) / d - 2 ^ (E - 53)) * 10 ^ p)
    (hB : ((hi : ℚ) / d + 2 ^ (E - 53)) * 10 ^ p < (B : ℚ) + 1 / 2) :
    A ≤ shown p (RN ((val : ℚ) / (d : ℚ))) ∧ shown p (RN ((val : ℚ) / (d : ℚ))) ≤ B := by
  have hdq : (0 : ℚ) < d := by exact_mod_cast hd
  have hvq : (0 : ℚ) < val := by exact_mod_cast (lt_of_lt_of_le h0 hlo)
  have h10 : (0 : ℚ) < 10 ^ p := by positivity
  have h1 : (lo : ℚ) / d ≤ (val : ℚ) / d :=
    div_le_div_of_nonneg_right (by exact_mod_cast hlo) hdq.le
  have h2 : (val : ℚ) / d ≤ (hi : ℚ) / d :=
    div_le_div_of_nonneg_right (by exact_mod_cast hhi) hdq.le
  apply shown_bounds p _ E A B (div_pos hvq hdq) (lt_of_le_of_lt h2 hE)
  · exact lt_of_lt_of_le hA (mul_le_mul_of_nonneg_right (by linarith) h10.le)
  · exact lt_of_le_of_lt (mul_le_mul_of_nonneg_right (by linarith) h10.le) hB

theorem fmt_f_2_shape (x : ℚ) (h1 : 100 ≤ shown 2 x) (h2 : shown 2 x ≤ 999) :
    fmt_f 2 x = [Nat.digitChar (shown 2 x / 100), '.', Nat.digitChar (shown 2 x / 10 % 10),
      Nat.digitChar (shown 2 x % 10)] := by
  unfold fmt_f
  rw [if_neg (by norm_num)]
  exact shape_2 _ (by omega) h1

theorem fmt_f_1_shape (x : ℚ) (h1 : 100 ≤ shown 1 x) (h2 : shown 1 x ≤ 999) :
    fmt_f 1 x = [Nat.digitChar (shown 1 x / 100), Nat.digitChar (shown 1 x / 10 % 10), '.',
      Nat.digitChar (shown 1 x % 10)] := by
  unfold fmt_f
  rw [if_neg (by norm_num)]
  exact shape_1 _ (by omega) h1

theorem aux_2dec (w t : ℚ) (h1 : 1 ≤ w) (h2 : w ≤ 9995 / 1000 - t)
    (ht : 1 / (10 * 2 ^ 40) ≤ t) :
    ((100 : ℕ) : ℚ) - 1 / 2 < (w - 2 ^ ((3 : ℤ) - 53)) * 10 ^ 2 ∧
      (w + 2 ^ ((3 : ℤ) - 53)) * 10 ^ 2 < ((999 : ℕ) : ℚ) + 1 / 2 := by
  have e2 : (2 : ℚ) ^ ((3 : ℤ) - 53) = 1 / 2 ^ 50 := by
    rw [show (3 : ℤ) - 53 = -50 by norm_num, zpow_neg]; norm_num
  rw [e2]
  norm_num at ht ⊢
  constructor <;> linarith

theorem aux_1dec (w t : ℚ) (h1 : 9995 / 1000 ≤ w) (h2 : w ≤ 9995 / 100 - t)
    (ht : 1 / (5 * 2 ^ 40) ≤ t) :
    ((100 : ℕ) : ℚ) - 1 / 2 < (w - 2 ^ ((6 : ℤ) - 53)) * 10 ^ 1 ∧
      (w + 2 ^ ((6 : ℤ) - 53)) * 10 ^ 1 < ((999 : ℕ) : ℚ) + 1 / 2 := by
  have e2 : (2 : ℚ) ^ ((6 : ℤ) - 53) = 1 / 2 ^ 47 := by
    rw [show (6 : ℤ) - 53 = -47 by norm_num, zpow_neg]; norm_num
  rw [e2]
  norm_num at ht ⊢
  constructor <;> linarith

/-- A 2-decimal tier with divisor `d` shows between 1.00 and 9.99 for every
`val` from `d` up to, but not including, `9.995 * d`. -/
theorem tier2_shown (val d : ℕ) (hd : 0 < d) (hd2 : d ≤ 2 ^ 40) (hlo : d ≤ val)
    (hhi : 1000 * val + 100 ≤ 9995 * d) :
    100 ≤ shown 2 (RN ((val : ℚ) / (d : ℚ))) ∧ shown 2 (RN ((val : ℚ) / (d : ℚ))) ≤ 999 := by
  have hdq : (0 : ℚ) < d := by exact_mod_cast hd
  have hd2q : (d : ℚ) ≤ 2 ^ 40 := by exact_mod_cast hd2
  have hvq : (0 : ℚ) < val := by exact_mod_cast (lt_of_lt_of_le hd hlo)
  have hloq : (d : ℚ) ≤ val := by exact_mod_cast hlo
  have hhiq : 1000 * (val : ℚ) + 100 ≤ 9995 * d := by exact_mod_cast hhi
  have hv1 : 1 ≤ (val : ℚ) / d := by rw [le_div_iff₀ hdq]; linarith
  have hv2 : (val : ℚ) / d ≤ 9995 / 1000 - 1 / (10 * d) := by
    rw [div_le_iff₀ hdq]
    have : (9995 / 1000 - 1 / (10 * (d : ℚ))) * d = 9995 / 1000 * d - 1 / 10 := by
      field_simp; ring
    rw [this]; linarith
  have hinv : 1 / (10 * (2 : ℚ) ^ 40) ≤ 1 / (10 * (d : ℚ)) :=
    one_div_le_one_div_of_le (by positivity) (by linarith)
  have hpos : (0 : ℚ) < 1 / (10 * (d : ℚ)) := by positivity
  have haux := aux_2dec _ _ hv1 hv2 hinv
  exact shown_bounds 2 _ 3 100 999 (div_pos hvq hdq)
    (by norm_num; linarith) haux.1 haux.2

/-- A 1-decimal tier with divisor `d` shows between 10.0 and 99.9 for every
`val` from `9.995 * d` up to, but not including, `99.95 * d`. -/
theorem tier1_shown (val d : ℕ) (hd : 0 < d) (hd2 : d ≤ 2 ^ 40)
    (hlo : 9995 * d ≤ 1000 * val) (hhi : 100 * val + 20 ≤ 9995 * d) :
    100 ≤ shown 1 (RN ((val : ℚ) / (d : ℚ))) ∧ shown 1 (RN ((val : ℚ) / (d : ℚ))) ≤ 999 := by
  have hdq : (0 : ℚ) < d := by exact_mod_cast hd
  have hd2q : (d : ℚ) ≤ 2 ^ 40 := by exact_mod_cast hd2
  have hloq : 9995 * (d : ℚ) ≤ 1000 * val := by exact_mod_cast hlo
  have hvq : (0 : ℚ) < val := by linarith
  have hhiq : 100 * (val : ℚ) + 20 ≤ 9995 * d := by exact_mod_cast hhi
  have hv1 : 9995 / 1000 ≤ (val : ℚ) / d := by rw [le_div_iff₀ hdq]; linarith
  have hv2 : (val : ℚ) / d ≤ 9995 / 100 - 1 / (5 * d) := by
    rw [div_le_iff₀ hdq]
    have : (9995 / 100 - 1 / (5 * (d : ℚ))) * d = 9995 / 100 * d - 1 / 5 := by
      field_simp; ring
    rw [this]; linarith
  have hinv : 1 / (5 * (2 : ℚ) ^ 40) ≤ 1 / (5 * (d : ℚ)) :=
    one_div_le_one_div_of_le (by positivity) (by linarith)
  have hpos : (0 : ℚ) < 1 / (5 * (d : ℚ)) := by positivity
  have haux := aux_1dec _ _ hv1 hv2 hinv
  exact shown_bounds 1 _ 6 100 999 (div_pos hvq hdq)
    (by norm_num; linarith) haux.1 haux.2


/-! ## The text of each tier of `DI` -/

theorem no_nul_append (s t : List Char) (hs : ∀ a ∈ s, a ≠ NUL) (ht : ∀ a ∈ t, a ≠ NUL) :
    ∀ a ∈ s ++ t, a ≠ NUL := by
  intro a ha
  rcases List.mem_append.mp ha with h | h
  · exact hs a h
  · exact ht a h

theorem DI_text_u0 (val : ℕ) (h2 : val < 10000) :
    DI_text val = fmt_llu val := by
  unfold DI_text
  rw [if_pos h2]

theorem DI_text_k1 (val : ℕ) (h1 : 10000 ≤ val) (h2 : val < 99950) :
    DI_text val = fmt_f 1 (RN ((val : ℚ) / ((1000 : ℕ) : ℚ))) ++ ['k'] := by
  unfold DI_text
  rw [if_neg (show ¬ val < 10000 by omega), if_pos h2]

theorem DI_text_k0 (val : ℕ) (h1 : 99950 ≤ val) (h2 : val < 1000000) :
    DI_text val = fmt_llu (val / 1000) ++ ['k'] := by
  unfold DI_text
  rw [if_neg (show ¬ val < 10000 by omega), if_neg (show ¬ val < 99950 by omega), if_pos h2]

theorem DI_text_M2 (val : ℕ) (h1 : 1000000 ≤ val) (h2 : val < 9995000) :
    DI_text val = fmt_f 2 (RN ((val : ℚ) / ((1000000 : ℕ) : ℚ))) ++ ['M'] := by
  unfold DI_text
  rw [if_neg (show ¬ val < 10000 by omega), if_neg (show ¬ val < 99950 by omega),
    if_neg (show ¬ val < 1000000 by omega), if_pos h2]

theorem DI_text_M1 (val : ℕ) (h1 : 9995000 ≤ val) (h2 : val < 99950000) :
    DI_text val = fmt_f 1 (RN ((val : ℚ) / ((1000000 : ℕ) : ℚ))) ++ ['M'] := by
  unfold DI_text
  rw [if_neg (show ¬ val < 10000 by omega), if_neg (show ¬ val < 99950 by omega),
    if_neg (show ¬ val < 1000000 by omega), if_neg (show ¬ val < 9995000 by omega), if_pos h2]

theorem DI_text_M0 (val : ℕ) (h1 : 99950000 ≤ val) (h2 : val < 1000000000) :
    DI_text val = fmt_llu (val / 1000000) ++ ['M'] := by
  unfold DI_text
  rw [if_neg (show ¬ val < 10000 by omega), if_neg (show ¬ val < 99950 by omega),
    if_neg (show ¬ val < 1000000 by omega), if_neg (show ¬ val < 9995000 by omega),
    if_neg (show ¬ val < 99950000 by omega), if_pos h2]

theorem DI_text_G2 (val : ℕ) (h1 : 1000000000 ≤ val) (h2 : val < 9995000000) :
    DI_text val = fmt_f 2 (RN ((val : ℚ) / ((1000000000 : ℕ) : ℚ))) ++ ['G'] := by
  unfold DI_text
  rw [if_neg (show ¬ val < 10000 by omega), if_neg (show ¬ val < 99950 by omega),
    if_neg (show ¬ val < 1000000 by omega), if_neg (show ¬ val < 9995000 by omega),
    if_neg (show ¬ val < 99950000 by omega), if_neg (show ¬ val < 1000000000 by omega),
    if_pos h2]

theorem DI_text_G1 (val : ℕ) (h1 : 9995000000 ≤ val) (h2 : val < 99950000000) :
    DI_text val = fmt_f 1 (RN ((val : ℚ) / ((1000000000 : ℕ) : ℚ))) ++ ['G'] := by
  unfold DI_text
  rw [if_neg (show ¬ val < 10000 by omega), if_neg (show ¬ val < 99950 by omega),
    if_neg (show ¬ val < 1000000 by omega), if_neg (show ¬ val < 9995000 by omega),
    if_neg (show ¬ val < 99950000 by omega), if_neg (show ¬ val < 1000000000 by omega),
    if_neg (show ¬ val < 9995000000 by omega), if_pos h2]

theorem DI_text_G0 (val : ℕ) (h1 : 99950000000 ≤ val) (h2 : val < 1000000000000) :
    DI_text val = fmt_llu (val / 1000000000) ++ ['G'] := by
  unfold DI_text
  rw [if_neg (show ¬ val < 10000 by omega), if_neg (show ¬ val < 99950 by omega),
    if_neg (show ¬ val < 1000000 by omega), if_neg (show ¬ val < 9995000 by omega),
    if_neg (show ¬ val < 99950000 by omega), if_neg (show ¬ val < 1000000000 by omega),
    if_neg (show ¬ val < 9995000000 by omega), if_neg (show ¬ val < 99950000000 by omega),
    if_pos h2]

theorem DI_text_T2 (val : ℕ) (h1 : 1000000000000 ≤ val) (h2 : val < 9995000000000) :
    DI_text val = fmt_f 2 (RN ((val : ℚ) / ((1000000000000 : ℕ) : ℚ))) ++ ['T'] := by
  unfold DI_text
  rw [if_neg (show ¬ val < 10000 by omega), if_neg (show ¬ val < 99950 by omega),
    if_neg (show ¬ val < 1000000 by omega), if_neg (show ¬ val < 9995000 by omega),
    if_neg (show ¬ val < 99950000 by omega), if_neg (show ¬ val < 1000000000 by omega),
    if_neg (show ¬ val < 9995000000 by omega), if_neg (show ¬ val < 99950000000 by omega),
    if_neg (show ¬ val < 1000000000000 by omega), if_pos h2]

theorem DI_text_T1 (val : ℕ) (h1 : 9995000000000 ≤ val) (h2 : val < 99950000000000) :
    DI_text val = fmt_f 1 (RN ((val : ℚ) / ((1000000000000 : ℕ) : ℚ))) ++ ['T'] := by
  unfold DI_text
  rw [if_neg (show ¬ val < 10000 by omega), if_neg (show ¬ val < 99950 by omega),
    if_neg (show ¬ val < 1000000 by omega), if_neg (show ¬ val < 9995000 by omega),
    if_neg (show ¬ val < 99950000 by omega), if_neg (show ¬ val < 1000000000 by omega),
    if_neg (show ¬ val < 9995000000 by omega), if_neg (show ¬ val < 99950000000 by omega),
    if_neg (show ¬ val < 1000000000000 by omega), if_neg (show ¬ val < 9995000000000 by omega),
    if_pos h2]

theorem frac2_shape (val d : ℕ) (hd : 0 < d) (hd2 : d ≤ 2 ^ 40) (hlo : d ≤ val)
    (hhi : 1000 * val + 100 ≤ 9995 * d) :
    ∃ a b c : ℕ, 1 ≤ a ∧ a ≤ 9 ∧ b ≤ 9 ∧ c ≤ 9 ∧
      fmt_f 2 (RN ((val : ℚ) / (d : ℚ))) =
        [Nat.digitChar a, '.', Nat.digitChar b, Nat.digitChar c] := by
  obtain ⟨h1, h2⟩ := tier2_shown val d hd hd2 hlo hhi
  exact ⟨_, _, _, by omega, by omega, by omega, by omega, fmt_f_2_shape _ h1 h2⟩

theorem frac1_shape (val d : ℕ) (hd : 0 < d) (hd2 : d ≤ 2 ^ 40) (hlo : 9995 * d ≤ 1000 * val)
    (hhi : 100 * val + 20 ≤ 9995 * d) :
    ∃ a b c : ℕ, 1 ≤ a ∧ a ≤ 9 ∧ b ≤ 9 ∧ c ≤ 9 ∧
      fmt_f 1 (RN ((val : ℚ) / (d : ℚ))) =
        [Nat.digitChar a, Nat.digitChar b, '.', Nat.digitChar c] := by
  obtain ⟨h1, h2⟩ := tier1_shown val d hd hd2 hlo hhi
  exact ⟨_, _, _, by omega, by omega, by omega, by omega, fmt_f_1_shape _ h1 h2⟩

theorem infty_no_nul : ∀ a ∈ infty, a ≠ NUL := by decide

theorem ite_no_nul (c : Prop) [Decidable c] (s t : List Char) (hs : ∀ a ∈ s, a ≠ NUL)
    (ht : ∀ a ∈ t, a ≠ NUL) : ∀ a ∈ (if c then s else t), a ≠ NUL := by
  split <;> assumption

theorem DI_text_no_nul (val : ℕ) : ∀ a ∈ DI_text val, a ≠ NUL := by
  unfold DI_text
  exact (ite_no_nul _ _ _ (fmt_llu_no_nul _)
    (ite_no_nul _ _ _ (no_nul_append _ _ (fmt_f_no_nul _ _) (by decide))
    (ite_no_nul _ _ _ (no_nul_append _ _ (fmt_llu_no_nul _) (by decide))
    (ite_no_nul _ _ _ (no_nul_append _ _ (fmt_f_no_nul _ _) (by decide))
    (ite_no_nul _ _ _ (no_nul_append _ _ (fmt_f_no_nul _ _) (by decide))
    (ite_no_nul _ _ _ (no_nul_append _ _ (fmt_llu_no_nul _) (by decide))
    (ite_no_nul _ _ _ (no_nul_append _ _ (fmt_f_no_nul _ _) (by decide))
    (ite_no_nul _ _ _ (no_nul_append _ _ (fmt_f_no_nul _ _) (by decide))
    (ite_no_nul _ _ _ (no_nul_append _ _ (fmt_llu_no_nul _) (by decide))
    (ite_no_nul _ _ _ (no_nul_append _ _ (fmt_f_no_nul _ _) (by decide))
    (ite_no_nul _ _ _ (no_nul_append _ _ (fmt_f_no_nul _ _) (by decide))
    infty_no_nul)))))))))))

theorem DI_text_length (val : ℕ) : (DI_text val).length ≤ 5 := by
  by_cases h0 : val < 10000
  · rw [DI_text_u0 val h0]
    have := toDigits_length_le val 4 (by omega) (by norm_num)
    unfold fmt_llu; omega
  by_cases h1 : val < 99950
  · rw [DI_text_k1 val (by omega) h1]
    obtain ⟨a, b, c, -, -, -, -, e⟩ := frac1_shape val 1000 (by norm_num) (by norm_num)
      (by omega) (by omega)
    rw [e]; simp
  by_cases h2 : val < 1000000
  · rw [DI_text_k0 val (by omega) h2, List.length_append]
    have := toDigits_length_le (val / 1000) 3 (by omega) (by norm_num)
    unfold fmt_llu; simp only [List.length_singleton]; omega
  by_cases h3 : val < 9995000
  · rw [DI_text_M2 val (by omega) h3]
    obtain ⟨a, b, c, -, -, -, -, e⟩ := frac2_shape val 1000000 (by norm_num) (by norm_num)
      (by omega) (by omega)
    rw [e]; simp
  by_cases h4 : val < 99950000
  · rw [DI_text_M1 val (by omega) h4]
    obtain ⟨a, b, c, -, -, -, -, e⟩ := frac1_shape val 1000000 (by norm_num) (by norm_num)
      (by omega) (by omega)
    rw [e]; simp
  by_cases h5 : val < 1000000000
  · rw [DI_text_M0 val (by omega) h5, List.length_append]
    have := toDigits_length_le (val / 1000000) 3 (by omega) (by norm_num)
    unfold fmt_llu; simp only [List.length_singleton]; omega
  by_cases h6 : val < 9995000000
  · rw [DI_text_G2 val (by omega) h6]
    obtain ⟨a, b, c, -, -, -, -, e⟩ := frac2_shape val 1000000000 (by norm_num) (by norm_num)
      (by omega) (by omega)
    rw [e]; simp
  by_cases h7 : val < 99950000000
  · rw [DI_text_G1 val (by omega) h7]
    obtain ⟨a, b, c, -, -, -, -, e⟩ := frac1_shape val 1000000000 (by norm_num) (by norm_num)
      (by omega) (by omega)
    rw [e]; simp
  by_cases h8 : val < 1000000000000
  · rw [DI_text_G0 val (by omega) h8, List.length_append]
    have := toDigits_length_le (val / 1000000000) 3 (by omega) (by norm_num)
    unfold fmt_llu; simp only [List.length_singleton]; omega
  by_cases h9 : val < 9995000000000
  · rw [DI_text_T2 val (by omega) h9]
    obtain ⟨a, b, c, -, -, -, -, e⟩ := frac2_shape val 1000000000000 (by norm_num) (by norm_num)
      (by omega) (by omega)
    rw [e]; simp
  by_cases h10 : val < 99950000000000
  · rw [DI_text_T1 val (by omega) h10]
    obtain ⟨a, b, c, -, -, -, -, e⟩ := frac1_shape val 1000000000000 (by norm_num) (by norm_num)
      (by omega) (by omega)
    rw [e]; simp
  rw [DI_text_of_ge val (by omega)]; simp [infty]


/-- The C string `DI` leaves in the buffer is its text cut to the capacity. -/
theorem cstr_DI (buf : List Char) (len val : ℕ) (hlen : 1 ≤ len) :
    cstr (DI buf len val) = (DI_text val).take (len - 1) := by
  rw [DI_cases]
  by_cases h : val < 99950000000000
  · rw [if_pos h, cstr_snprintf buf len _ hlen (DI_text_no_nul val)]
  · rw [if_neg h, cstr_store_nul, cstr_strncpy_take buf infty len (len - 1) (by omega)
      infty_no_nul, DI_text_of_ge val (by omega)]

theorem cstr_DI_of_le (buf : List Char) (len val : ℕ) (hlen : 6 ≤ len) :
    cstr (DI buf len val) = DI_text val := by
  rw [cstr_DI buf len val (by omega)]
  exact List.take_of_length_le (by have := DI_text_length val; omega)


theorem DI_text_eq_cascade (val : ℕ) : DI_text val = cascade decimalTiers val := by
  unfold cascade decimalTiers
  by_cases h0 : val < 10000
  · rw [DI_text_u0 val h0]; simp [List.find?, h0, Tier.render]
  by_cases h1 : val < 99950
  · rw [DI_text_k1 val (by omega) h1]
    simp [List.find?, h0, h1, Tier.render, double_div_eq val 1000 (by omega) (by norm_num)]
  by_cases h2 : val < 1000000
  · rw [DI_text_k0 val (by omega) h2]; simp [List.find?, h0, h1, h2, Tier.render]
  by_cases h3 : val < 9995000
  · rw [DI_text_M2 val (by omega) h3]
    simp [List.find?, h0, h1, h2, h3, Tier.render, double_div_eq val 1000000 (by omega) (by norm_num)]
  by_cases h4 : val < 99950000
  · rw [DI_text_M1 val (by omega) h4]
    simp [List.find?, h0, h1, h2, h3, h4, Tier.render, double_div_eq val 1000000 (by omega) (by norm_num)]
  by_cases h5 : val < 1000000000
  · rw [DI_text_M0 val (by omega) h5]; simp [List.find?, h0, h1, h2, h3, h4, h5, Tier.render]
  by_cases h6 : val < 9995000000
  · rw [DI_text_G2 val (by omega) h6]
    simp [List.find?, h0, h1, h2, h3, h4, h5, h6, Tier.render, double_div_eq val 1000000000 (by omega) (by norm_num)]
  by_cases h7 : val < 99950000000
  · rw [DI_text_G1 val (by omega) h7]
    simp [List.find?, h0, h1, h2, h3, h4, h5, h6, h7, Tier.render, double_div_eq val 1000000000 (by omega) (by norm_num)]
  by_cases h8 : val < 1000000000000
  · rw [DI_text_G0 val (by omega) h8]; simp [List.find?, h0, h1, h2, h3, h4, h5, h6, h7, h8, Tier.render]
  by_cases h9 : val < 9995000000000
  · rw [DI_text_T2 val (by omega) h9]
    simp [List.find?, h0, h1, h2, h3, h4, h5, h6, h7, h8, h9, Tier.render, double_div_eq val 1000000000000 (by omega) (by norm_num)]
  by_cases h10 : val < 99950000000000
  · rw [DI_text_T1 val (by omega) h10]
    simp [List.find?, h0, h1, h2, h3, h4, h5, h6, h7, h8, h9, h10, Tier.render, double_div_eq val 1000000000000 (by omega) (by norm_num)]
  rw [DI_text_of_ge val (by omega)]; simp [List.find?, h0, h1, h2, h3, h4, h5, h6, h7, h8, h9, h10]

theorem toDigits_append_head (n : ℕ) (t : List Char) :
    ∃ a rest, Nat.toDigits 10 n ++ t = a :: rest ∧ a ∈ decChars := by
  cases h : Nat.toDigits 10 n with
  | nil => exact absurd h (toDigits_ne_nil n)
  | cons a l =>
    refine ⟨a, l ++ t, rfl, ?_⟩
    exact toDigits_mem n a (by rw [h]; exact List.mem_cons_self a l)

theorem fmt_f_append_head (p : ℕ) (x : ℚ) (t : List Char) :
    ∃ a rest, fmt_f p x ++ t = a :: rest ∧ a ∈ decChars := by
  unfold fmt_f
  rw [List.append_assoc]
  exact toDigits_append_head _ _

theorem DI_text_head (val : ℕ) (h : val < 99950000000000) :
    ∃ a rest, DI_text val = a :: rest ∧ a ∈ decChars := by
  by_cases h0 : val < 10000
  · rw [DI_text_u0 val h0]
    have := toDigits_append_head val []
    simpa [fmt_llu] using this
  by_cases h1 : val < 99950
  · rw [DI_text_k1 val (by omega) h1]
    exact fmt_f_append_head _ _ _
  by_cases h2 : val < 1000000
  · rw [DI_text_k0 val (by omega) h2]
    exact toDigits_append_head _ _
  by_cases h3 : val < 9995000
  · rw [DI_text_M2 val (by omega) h3]
    exact fmt_f_append_head _ _ _
  by_cases h4 : val < 99950000
  · rw [DI_text_M1 val (by omega) h4]
    exact fmt_f_append_head _ _ _
  by_cases h5 : val < 1000000000
  · rw [DI_text_M0 val (by omega) h5]
    exact toDigits_append_head _ _
  by_cases h6 : val < 9995000000
  · rw [DI_text_G2 val (by omega) h6]
    exact fmt_f_append_head _ _ _
  by_cases h7 : val < 99950000000
  · rw [DI_text_G1 val (by omega) h7]
    exact fmt_f_append_head _ _ _
  by_cases h8 : val < 1000000000000
  · rw [DI_text_G0 val (by omega) h8]
    exact toDigits_append_head _ _
  by_cases h9 : val < 9995000000000
  · rw [DI_text_T2 val (by omega) h9]
    exact fmt_f_append_head _ _ _
  rw [DI_text_T1 val (by omega) h]
  exact fmt_f_append_head _ _ _


/-! ## Properties of `DI` -/

/-- C1: with a capacity that does not truncate (six bytes suffice), `DI`
renders `val` with the first row of the decimal tier table whose bound exceeds
`val`; the bounds of the eleven rows are the integers 10,000; 99,950;
1,000,000; 9,995,000; ... ; 99,950 * 10^9 of `decimalTiers`, and the value
shown is `val` divided by the divisor of the row. -/
theorem DI_renders_first_matching_tier (buf : List Char) (len val : ℕ) (hlen : 6 ≤ len) :
    cstr (DI buf len val) = cascade decimalTiers val := by
  rw [cstr_DI_of_le buf len val hlen, DI_text_eq_cascade]

theorem DI_renders_first_matching_tier_witness :
    cstr (DI (List.replicate 8 NUL) 8 1234567) = cascade decimalTiers 1234567 :=
  DI_renders_first_matching_tier (List.replicate 8 NUL) 8 1234567 (by decide)

/-- C2: for every `val < 10,000` and every capacity of at least 5, the output
of `DI` is the plain decimal string of `val`. -/
theorem DI_below_ten_thousand_plain (buf : List Char) (len val : ℕ) (hval : val < 10000)
    (hlen : 5 ≤ len) : cstr (DI buf len val) = (Nat.repr val).toList := by
  rw [cstr_DI buf len val (by omega), DI_text_u0 val hval]
  have h := toDigits_length_le val 4 (by omega) (by norm_num)
  show (Nat.toDigits 10 val).take (len - 1) = Nat.toDigits 10 val
  exact List.take_of_length_le (by omega)

theorem DI_below_ten_thousand_plain_witness :
    cstr (DI (List.replicate 5 NUL) 5 9999) = (Nat.repr 9999).toList :=
  DI_below_ten_thousand_plain (List.replicate 5 NUL) 5 9999 (by decide) (by decide)

/-- C3: in a fractional tier of `DI` rounding to the displayed precision never
gains a digit.  In the 2-decimal tiers (M, G, T) the output is one non-zero
digit, a point, two digits and the suffix (1.00 to 9.99); in the 1-decimal
tiers (k, M, G, T) it is two digits, the first non-zero, a point, one digit and
the suffix (10.0 to 99.9); and every `val` from 9,995,000 up to 10,000,000 is
shown as "10.0M". -/
theorem DI_fractional_tiers_keep_digits (buf : List Char) (len val : ℕ) (hlen : 6 ≤ len) :
    (∀ s : Char,
      (1000000 ≤ val ∧ val < 9995000 ∧ s = 'M') ∨
      (1000000000 ≤ val ∧ val < 9995000000 ∧ s = 'G') ∨
      (1000000000000 ≤ val ∧ val < 9995000000000 ∧ s = 'T') →
      ∃ a b c : ℕ, 1 ≤ a ∧ a ≤ 9 ∧ b ≤ 9 ∧ c ≤ 9 ∧
        cstr (DI buf len val) =
          [Nat.digitChar a, '.', Nat.digitChar b, Nat.digitChar c, s]) ∧
    (∀ s : Char,
      (10000 ≤ val ∧ val < 99950 ∧ s = 'k') ∨
      (9995000 ≤ val ∧ val < 99950000 ∧ s = 'M') ∨
      (9995000000 ≤ val ∧ val < 99950000000 ∧ s = 'G') ∨
      (9995000000000 ≤ val ∧ val < 99950000000000 ∧ s = 'T') →
      ∃ a b c : ℕ, 1 ≤ a ∧ a ≤ 9 ∧ b ≤ 9 ∧ c ≤ 9 ∧
        cstr (DI buf len val) =
          [Nat.digitChar a, Nat.digitChar b, '.', Nat.digitChar c, s]) ∧
    (9995000 ≤ val ∧ val < 10000000 →
      cstr (DI buf len val) = ['1', '0', '.', '0', 'M']) := by
  rw [cstr_DI_of_le buf len val hlen]
  refine ⟨?_, ?_, ?_⟩
  · rintro s (⟨h1, h2, rfl⟩ | ⟨h1, h2, rfl⟩ | ⟨h1, h2, rfl⟩)
    · obtain ⟨a, b, c, ha, ha2, hb, hc, e⟩ :=
        frac2_shape val 1000000 (by norm_num) (by norm_num) (by omega) (by omega)
      exact ⟨a, b, c, ha, ha2, hb, hc, by rw [DI_text_M2 val h1 h2, e]; rfl⟩
    · obtain ⟨a, b, c, ha, ha2, hb, hc, e⟩ :=
        frac2_shape val 1000000000 (by norm_num) (by norm_num) (by omega) (by omega)
      exact ⟨a, b, c, ha, ha2, hb, hc, by rw [DI_text_G2 val h1 h2, e]; rfl⟩
    · obtain ⟨a, b, c, ha, ha2, hb, hc, e⟩ :=
        frac2_shape val 1000000000000 (by norm_num) (by norm_num) (by omega) (by omega)
      exact ⟨a, b, c, ha, ha2, hb, hc, by rw [DI_text_T2 val h1 h2, e]; rfl⟩
  · rintro s (⟨h1, h2, rfl⟩ | ⟨h1, h2, rfl⟩ | ⟨h1, h2, rfl⟩ | ⟨h1, h2, rfl⟩)
    · obtain ⟨a, b, c, ha, ha2, hb, hc, e⟩ :=
        frac1_shape val 1000 (by norm_num) (by norm_num) (by omega) (by omega)
      exact ⟨a, b, c, ha, ha2, hb, hc, by rw [DI_text_k1 val h1 h2, e]; rfl⟩
    · obtain ⟨a, b, c, ha, ha2, hb, hc, e⟩ :=
        frac1_shape val 1000000 (by norm_num) (by norm_num) (by omega) (by omega)
      exact ⟨a, b, c, ha, ha2, hb, hc, by rw [DI_text_M1 val h1 h2, e]; rfl⟩
    · obtain ⟨a, b, c, ha, ha2, hb, hc, e⟩ :=
        frac1_shape val 1000000000 (by norm_num) (by norm_num) (by omega) (by omega)
      exact ⟨a, b, c, ha, ha2, hb, hc, by rw [DI_text_G1 val h1 h2, e]; rfl⟩
    · obtain ⟨a, b, c, ha, ha2, hb, hc, e⟩ :=
        frac1_shape val 1000000000000 (by norm_num) (by norm_num) (by omega) (by omega)
      exact ⟨a, b, c, ha, ha2, hb, hc, by rw [DI_text_T1 val h1 h2, e]; rfl⟩
  · rintro ⟨h1, h2⟩
    have hs := tier_shown 1 val 1000000 9995000 9999999 3 100 100 (by norm_num) (by norm_num)
      h1 (by omega) (by norm_num) (by norm_num) (by norm_num)
    have h100 : shown 1 (RN ((val : ℚ) / ((1000000 : ℕ) : ℚ))) = 100 := by omega
    rw [DI_text_M1 val h1 (by omega), fmt_f_1_shape _ (by omega) (by omega), h100]
    rfl

theorem DI_fractional_tiers_keep_digits_witness :
    cstr (DI (List.replicate 6 NUL) 6 9995000) = ['1', '0', '.', '0', 'M'] :=
  (DI_fractional_tiers_keep_digits (List.replicate 6 NUL) 6 9995000 (by decide)).2.2
    ⟨by decide, by decide⟩

/-- C4 (the code at the failing input): `DI` applied to 99,950 leaves "99k"
in a six-byte buffer, where the comment of the tier and the specification promise
"100k". -/
theorem DI_99950_prints_99k :
    cstr (DI (List.replicate 6 NUL) 6 99950) = ['9', '9', 'k'] := by
  rw [cstr_DI_of_le _ _ _ (le_refl 6), DI_text_k0 99950 (by norm_num) (by norm_num)]
  decide

/-- C5: in an integer tier of `DI` with divisor `d` the output is the decimal
string of the truncated quotient `val / d` followed by the suffix of the tier
(for every capacity of at least 5); in particular `DI(999,500,000)` is "999M". -/
theorem DI_integer_tiers_truncate (buf : List Char) (len val : ℕ) (hlen : 5 ≤ len) :
    (99950 ≤ val ∧ val < 1000000 →
      cstr (DI buf len val) = (Nat.repr (val / 1000)).toList ++ ['k']) ∧
    (99950000 ≤ val ∧ val < 1000000000 →
      cstr (DI buf len val) = (Nat.repr (val / 1000000)).toList ++ ['M']) ∧
    (99950000000 ≤ val ∧ val < 1000000000000 →
      cstr (DI buf len val) = (Nat.repr (val / 1000000000)).toList ++ ['G']) ∧
    cstr (DI buf len 999500000) = ['9', '9', '9', 'M'] := by
  have key : ∀ (v d : ℕ) (s : Char), v / d < 1000 → DI_text v = fmt_llu (v / d) ++ [s] →
      cstr (DI buf len v) = (Nat.repr (v / d)).toList ++ [s] := by
    intro v d s hq ht
    rw [cstr_DI buf len v (by omega), ht]
    have h := toDigits_length_le (v / d) 3 hq (by norm_num)
    show (Nat.toDigits 10 (v / d) ++ [s]).take (len - 1) = Nat.toDigits 10 (v / d) ++ [s]
    exact List.take_of_length_le (by simp only [List.length_append, List.length_singleton]; omega)
  refine ⟨?_, ?_, ?_, ?_⟩
  · rintro ⟨h1, h2⟩
    exact key val 1000 'k' (by omega) (DI_text_k0 val h1 h2)
  · rintro ⟨h1, h2⟩
    exact key val 1000000 'M' (by omega) (DI_text_M0 val h1 h2)
  · rintro ⟨h1, h2⟩
    exact key val 1000000000 'G' (by omega) (DI_text_G0 val h1 h2)
  · rw [key 999500000 1000000 'M' (by norm_num) (DI_text_M0 _ (by norm_num) (by norm_num))]
    decide

theorem DI_integer_tiers_truncate_witness :
    cstr (DI (List.replicate 5 NUL) 5 999500000) = ['9', '9', '9', 'M'] :=
  (DI_integer_tiers_truncate (List.replicate 5 NUL) 5 999500000 (by decide)).2.2.2

/-- C6 as stated fails at capacity 1: for `val = 0` the buffer holds the first
`min 5 0 = 0` characters of "infty" (the empty string), although a tier
matches. -/
theorem DI_overflow_iff_fails_at_capacity_one :
    ¬ (cstr (DI [NUL] 1 0) = infty.take (min 5 (1 - 1)) ↔ 99950000000000 ≤ 0) := by
  rw [cstr_DI [NUL] 1 0 (le_refl 1)]
  simp

/-- C6 amended: for every capacity `c ≥ 1` a `val ≥ 99,950,000,000,000` leaves
the first `min 5 (c - 1)` characters of "infty"; for `c ≥ 2` the buffer holds
those characters if and only if `val ≥ 99,950,000,000,000`; and `DI(10^15)` is
"infty" for every capacity of at least 6. -/
theorem DI_overflow_marker_iff (buf : List Char) (c val : ℕ) (hc : 1 ≤ c) :
    (99950000000000 ≤ val → cstr (DI buf c val) = infty.take (min 5 (c - 1))) ∧
    (2 ≤ c → (cstr (DI buf c val) = infty.take (min 5 (c - 1)) ↔ 99950000000000 ≤ val)) ∧
    (6 ≤ c → cstr (DI buf c (10 ^ 15)) = infty) := by
  have hmin : infty.take (min 5 (c - 1)) = infty.take (c - 1) := by
    rcases Nat.le_total 5 (c - 1) with h | h
    · rw [Nat.min_eq_left h, List.take_of_length_le (by simp [infty]),
        List.take_of_length_le (by simpa [infty] using h)]
    · rw [Nat.min_eq_right h]
  have hge : 99950000000000 ≤ val → cstr (DI buf c val) = infty.take (min 5 (c - 1)) := by
    intro h
    rw [cstr_DI buf c val hc, DI_text_of_ge val h, hmin]
  refine ⟨hge, ?_, ?_⟩
  · intro hc2
    refine ⟨?_, hge⟩
    intro heq
    by_contra hlt
    obtain ⟨a, rest, e, ha⟩ := DI_text_head val (by omega)
    obtain ⟨k, hk⟩ : ∃ k, c - 1 = k + 1 := ⟨c - 2, by omega⟩
    rw [cstr_DI buf c val hc, hmin, e, hk] at heq
    simp only [infty, List.take_succ_cons] at heq
    have hai : a = 'i' := (List.cons.inj heq).1
    exact decChars_ne_i a ha hai
  · intro hc6
    rw [cstr_DI_of_le buf c _ hc6, DI_text_of_ge _ (by norm_num)]

theorem DI_overflow_marker_iff_witness :
    cstr (DI (List.replicate 6 NUL) 6 (10 ^ 15)) = infty :=
  (DI_overflow_marker_iff (List.replicate 6 NUL) 6 (10 ^ 15) (by decide)).2.2 (by decide)

/-- C8: the text `DI` produces for `val` has at most 5 characters: every
capacity leaves its first `min L (len - 1)` characters, and a buffer of 6 bytes
or more holds all of it. -/
theorem DI_text_at_most_five_chars (val : ℕ) :
    ∃ text : List Char, text.length ≤ 5 ∧
      (∀ (buf : List Char) (len : ℕ), 1 ≤ len →
        cstr (DI buf len val) = text.take (min text.length (len - 1))) ∧
      (∀ (buf : List Char) (len : ℕ), 6 ≤ len → cstr (DI buf len val) = text) := by
  refine ⟨DI_text val, DI_text_length val, ?_, fun buf len h => cstr_DI_of_le buf len val h⟩
  intro buf len hlen
  rw [cstr_DI buf len val hlen]
  rcases Nat.le_total (DI_text val).length (len - 1) with h | h
  · rw [Nat.min_eq_left h, List.take_of_length_le h, List.take_of_length_le (le_refl _)]
  · rw [Nat.min_eq_right h]


/-! ## The truncation law -/

theorem get_cstr_length (l : List Char) (h : (cstr l).length < l.length) :
    l[(cstr l).length]? = some NUL := by
  induction l with
  | nil => simp at h
  | cons a l ih =>
    by_cases ha : a = NUL
    · subst ha; rw [cstr_cons_nul]; simp
    · rw [cstr_cons_of_ne a l ha] at h ⊢
      simp only [List.length_cons, List.getElem?_cons_succ]
      exact ih (by simpa using h)

theorem lawful_snprintf (text : List Char) (h : ∀ a ∈ text, a ≠ NUL) :
    Lawful (fun buf len => snprintf buf len text) :=
  ⟨text, fun buf len h1 h2 =>
    ⟨cstr_snprintf buf len text h1 h, snprintf_length buf len text h2,
      snprintf_drop buf len text⟩⟩

theorem lawful_CHK_u64 (val d m : ℕ) (s : List Char) (hs : ∀ a ∈ s, a ≠ NUL)
    (F : List Char → ℕ → List Char) (hF : Lawful F) :
    Lawful (fun buf len => (CHK_FORMAT_u64 buf len val d m s).getD (F buf len)) := by
  unfold CHK_FORMAT_u64
  by_cases h : val < d * m
  · simp only [if_pos h, Option.getD_some]
    exact lawful_snprintf _ (no_nul_append _ _ (fmt_llu_no_nul _) hs)
  · simp only [if_neg h, Option.getD_none]
    exact hF

theorem lawful_CHK_double (val d : ℕ) (lm : ℚ) (p : ℕ) (s : List Char)
    (hs : ∀ a ∈ s, a ≠ NUL) (F : List Char → ℕ → List Char) (hF : Lawful F) :
    Lawful (fun buf len => (CHK_FORMAT_double buf len val d lm p s).getD (F buf len)) := by
  unfold CHK_FORMAT_double
  by_cases h : u64_to_double val < double_mul (int_to_double d) lm
  · simp only [if_pos h, Option.getD_some]
    exact lawful_snprintf _ (no_nul_append _ _ (fmt_f_no_nul _ _) hs)
  · simp only [if_neg h, Option.getD_none]
    exact hF

theorem lawful_overflow_DI :
    Lawful (fun buf len => store (strncpy buf infty len) (len - 1) NUL) :=
  ⟨infty, fun buf len h1 h2 =>
    ⟨by rw [cstr_store_nul, cstr_strncpy_take buf infty len (len - 1) (by omega) infty_no_nul],
      by rw [store_length, strncpy_length buf infty len h2],
      by rw [store_drop _ _ _ _ (by omega), strncpy_drop buf infty len len (le_refl _)]⟩⟩

theorem lawful_overflow_DMS :
    Lawful (fun buf len => store (strncpy buf infty (len - 1)) (len - 1) NUL) :=
  ⟨infty, fun buf len h1 h2 =>
    ⟨by rw [cstr_store_nul,
        cstr_strncpy_take buf infty (len - 1) (len - 1) (le_refl _) infty_no_nul],
      by rw [store_length, strncpy_length buf infty (len - 1) (by omega)],
      by rw [store_drop _ _ _ _ (by omega), strncpy_drop buf infty (len - 1) len (by omega)]⟩⟩

theorem DI_lawful (val : ℕ) : Lawful (fun buf len => DI buf len val) := by
  unfold DI
  exact lawful_CHK_u64 _ _ _ _ (by decide) _ <|
    lawful_CHK_double _ _ _ _ _ (by decide) _ <|
    lawful_CHK_u64 _ _ _ _ (by decide) _ <|
    lawful_CHK_double _ _ _ _ _ (by decide) _ <|
    lawful_CHK_double _ _ _ _ _ (by decide) _ <|
    lawful_CHK_u64 _ _ _ _ (by decide) _ <|
    lawful_CHK_double _ _ _ _ _ (by decide) _ <|
    lawful_CHK_double _ _ _ _ _ (by decide) _ <|
    lawful_CHK_u64 _ _ _ _ (by decide) _ <|
    lawful_CHK_double _ _ _ _ _ (by decide) _ <|
    lawful_CHK_double _ _ _ _ _ (by decide) _ <|
    lawful_overflow_DI

theorem DMS_lawful (val : ℕ) : Lawful (fun buf len => DMS buf len val) := by
  unfold DMS
  exact lawful_CHK_u64 _ _ _ _ (by decide) _ <|
    lawful_CHK_double _ _ _ _ _ (by decide) _ <|
    lawful_CHK_u64 _ _ _ _ (by decide) _ <|
    lawful_CHK_double _ _ _ _ _ (by decide) _ <|
    lawful_CHK_double _ _ _ _ _ (by decide) _ <|
    lawful_CHK_u64 _ _ _ _ (by decide) _ <|
    lawful_CHK_double _ _ _ _ _ (by decide) _ <|
    lawful_CHK_double _ _ _ _ _ (by decide) _ <|
    lawful_CHK_u64 _ _ _ _ (by decide) _ <|
    lawful_CHK_double _ _ _ _ _ (by decide) _ <|
    lawful_CHK_double _ _ _ _ _ (by decide) _ <|
    lawful_overflow_DMS

theorem F64_fmt_no_nul (p : ℕ) (v : F64) : ∀ a ∈ v.fmt p, a ≠ NUL := by
  cases v with
  | finite neg mag =>
    unfold F64.fmt
    exact no_nul_append _ _ (by cases neg <;> decide) (fmt_f_no_nul p mag)
  | inf neg =>
    unfold F64.fmt
    exact no_nul_append _ _ (by cases neg <;> decide) (by decide)
  | nan neg =>
    unfold F64.fmt
    exact no_nul_append _ _ (by cases neg <;> decide) (by decide)

theorem DF_lawful (ub : ℕ) (val : F64) : Lawful (fun buf len => DF ub buf len val) := by
  unfold DF
  by_cases h1 : val.lt lit_99_995 = true
  · simp only [if_pos h1]
    exact lawful_snprintf _ (F64_fmt_no_nul 2 val)
  · by_cases h2 : val.lt lit_999_95 = true
    · simp only [if_neg h1, if_pos h2]
      exact lawful_snprintf _ (F64_fmt_no_nul 1 val)
    · simp only [if_neg h1, if_neg h2]
      exact DI_lawful _

theorem fmt_d_no_nul (i : ℤ) : ∀ a ∈ fmt_d i, a ≠ NUL := by
  intro a ha
  unfold fmt_d at ha
  split at ha
  · rcases List.mem_cons.mp ha with rfl | h
    · decide
    · exact decChars_ne_nul a (toDigits_mem _ a h)
  · exact decChars_ne_nul a (toDigits_mem _ a ha)

theorem DTD_lawful (int_buf : List Char) (cur_ms event_ms : ℕ) :
    Lawful (fun buf len => DTD int_buf buf len cur_ms event_ms) := by
  unfold DTD
  simp only
  refine ⟨_, fun buf len h1 h2 => ⟨cstr_snprintf _ len _ h1 ?_, ?_, ?_⟩⟩
  · exact no_nul_append _ _ (no_nul_append _ _ (no_nul_append _ _ (no_nul_append _ _
      (no_nul_append _ _ (no_nul_append _ _ (no_nul_append _ _ (cstr_no_nul _) (by decide))
      (fmt_d_no_nul _)) (by decide)) (fmt_d_no_nul _)) (by decide)) (fmt_d_no_nul _))
      (by decide)
  · split
    · rw [snprintf_length _ len _ (by rw [snprintf_length buf len _ h2]; exact h2),
        snprintf_length buf len _ h2]
    · rw [snprintf_length buf len _ h2]
  · split
    · rw [snprintf_drop, snprintf_drop]
    · rw [snprintf_drop]

/-- What the truncation law states of one call, from the three facts of
`Lawful`. -/
theorem law_of_facts (buf out text : List Char) (c : ℕ) (hc : 1 ≤ c) (hb : c ≤ buf.length)
    (h1 : cstr out = text.take (c - 1)) (h2 : out.length = buf.length)
    (h3 : out.drop c = buf.drop c) :
    cstr out = text.take (min text.length (c - 1)) ∧ (cstr out).length ≤ c - 1 ∧
      (∃ k, k < c ∧ out[k]? = some NUL) ∧ out.length = buf.length ∧
      out.drop c = buf.drop c := by
  have hl : (cstr out).length ≤ c - 1 := by rw [h1, List.length_take]; exact Nat.min_le_left _ _
  refine ⟨?_, hl, ⟨(cstr out).length, by omega, get_cstr_length out (by omega)⟩, h2, h3⟩
  rw [h1]
  rcases Nat.le_total text.length (c - 1) with h | h
  · rw [Nat.min_eq_left h, List.take_of_length_le h, List.take_of_length_le (le_refl _)]
  · rw [Nat.min_eq_right h]

/-- The terminator sits right after the text, not at the last byte of the
capacity: with a six-byte buffer `DI(0)` stores "0" and a NUL and leaves byte
5 as it was. -/
theorem DI_last_byte_untouched :
    (DI ['x', 'x', 'x', 'x', 'x', 'x'] 6 0)[5]? = some 'x' := by
  rw [DI_cases, if_pos (by norm_num), DI_text_u0 0 (by norm_num)]
  decide

/-- C7: for every capacity `c ≥ 1` (and a buffer of at least `c` bytes) and
every input, each of `DI`, `DMS`, `DF` and `DTD` has a text (what it produces
with unbounded capacity, of length `L`) such that the string left in the
buffer is the first `min L (c - 1)` characters of that text, has length at
most `c - 1` and is terminated by a NUL within the first `c` bytes; the buffer
keeps its size and no byte from index `c` on is changed. -/
theorem truncation_law :
    (∀ val : ℕ, ∃ text : List Char, ∀ (buf : List Char) (c : ℕ), 1 ≤ c → c ≤ buf.length →
      cstr (DI buf c val) = text.take (min text.length (c - 1)) ∧
      (cstr (DI buf c val)).length ≤ c - 1 ∧
      (∃ k, k < c ∧ (DI buf c val)[k]? = some NUL) ∧
      (DI buf c val).length = buf.length ∧ (DI buf c val).drop c = buf.drop c) ∧
    (∀ val : ℕ, ∃ text : List Char, ∀ (buf : List Char) (c : ℕ), 1 ≤ c → c ≤ buf.length →
      cstr (DMS buf c val) = text.take (min text.length (c - 1)) ∧
      (cstr (DMS buf c val)).length ≤ c - 1 ∧
      (∃ k, k < c ∧ (DMS buf c val)[k]? = some NUL) ∧
      (DMS buf c val).length = buf.length ∧ (DMS buf c val).drop c = buf.drop c) ∧
    (∀ (ub : ℕ) (val : F64), ∃ text : List Char,
      ∀ (buf : List Char) (c : ℕ), 1 ≤ c → c ≤ buf.length →
      cstr (DF ub buf c val) = text.take (min text.length (c - 1)) ∧
      (cstr (DF ub buf c val)).length ≤ c - 1 ∧
      (∃ k, k < c ∧ (DF ub buf c val)[k]? = some NUL) ∧
      (DF ub buf c val).length = buf.length ∧ (DF ub buf c val).drop c = buf.drop c) ∧
    (∀ (int_buf : List Char) (cur_ms event_ms : ℕ), ∃ text : List Char,
      ∀ (buf : List Char) (c : ℕ), 1 ≤ c → c ≤ buf.length →
      cstr (DTD int_buf buf c cur_ms event_ms) = text.take (min text.length (c - 1)) ∧
      (cstr (DTD int_buf buf c cur_ms event_ms)).length ≤ c - 1 ∧
      (∃ k, k < c ∧ (DTD int_buf buf c cur_ms event_ms)[k]? = some NUL) ∧
      (DTD int_buf buf c cur_ms event_ms).length = buf.length ∧
      (DTD int_buf buf c cur_ms event_ms).drop c = buf.drop c) := by
  refine ⟨fun val => ?_, fun val => ?_, fun ub val => ?_, fun int_buf cur_ms event_ms => ?_⟩
  · obtain ⟨text, h⟩ := DI_lawful val
    exact ⟨text, fun buf c hc hb =>
      law_of_facts buf _ text c hc hb (h buf c hc hb).1 (h buf c hc hb).2.1 (h buf c hc hb).2.2⟩
  · obtain ⟨text, h⟩ := DMS_lawful val
    exact ⟨text, fun buf c hc hb =>
      law_of_facts buf _ text c hc hb (h buf c hc hb).1 (h buf c hc hb).2.1 (h buf c hc hb).2.2⟩
  · obtain ⟨text, h⟩ := DF_lawful ub val
    exact ⟨text, fun buf c hc hb =>
      law_of_facts buf _ text c hc hb (h buf c hc hb).1 (h buf c hc hb).2.1 (h buf c hc hb).2.2⟩
  · obtain ⟨text, h⟩ := DTD_lawful int_buf cur_ms event_ms
    exact ⟨text, fun buf c hc hb =>
      law_of_facts buf _ text c hc hb (h buf c hc hb).1 (h buf c hc hb).2.1 (h buf c hc hb).2.2⟩


/-! ## Properties of `DMS` -/

theorem DMS_first_tier (buf : List Char) (len val : ℕ) (h : val < 10000) :
    DMS buf len val = snprintf buf len (fmt_llu val ++ [' ', 'B']) := by
  unfold DMS CHK_FORMAT_u64
  rw [if_pos (by omega), Option.getD_some, Nat.div_one]

theorem cstr_DMS_first_tier (buf : List Char) (len val : ℕ) (h : val < 10000) (hlen : 7 ≤ len) :
    cstr (DMS buf len val) = Nat.toDigits 10 val ++ [' ', 'B'] := by
  rw [DMS_first_tier buf len val h,
    cstr_snprintf buf len _ (by omega) (no_nul_append _ _ (fmt_llu_no_nul _) (by decide))]
  have hl := toDigits_length_le val 4 (by omega) (by norm_num)
  exact List.take_of_length_le (by
    simp only [fmt_llu, List.length_append, List.length_cons, List.length_nil]; omega)

/-- C9 as stated fails: with a 16-byte buffer `DMS(1024)` does not leave
"1.0 kB". -/
theorem DMS_1024_is_not_1_0_kB :
    cstr (DMS (List.replicate 16 NUL) 16 1024) ≠ ['1', '.', '0', ' ', 'k', 'B'] := by
  rw [cstr_DMS_first_tier _ 16 1024 (by norm_num) (by norm_num)]
  decide

/-- C9 amended: `DMS` applied to 1024 outputs "1024 B" for every capacity of
at least 7: the first tier of `DMS` prints every value below 10,000 as plain
bytes. -/
theorem DMS_1024_plain_bytes (buf : List Char) (len : ℕ) (hlen : 7 ≤ len) :
    cstr (DMS buf len 1024) = ['1', '0', '2', '4', ' ', 'B'] := by
  rw [cstr_DMS_first_tier buf len 1024 (by norm_num) hlen]
  decide

theorem DMS_1024_plain_bytes_witness :
    cstr (DMS (List.replicate 7 NUL) 7 1024) = ['1', '0', '2', '4', ' ', 'B'] :=
  DMS_1024_plain_bytes (List.replicate 7 NUL) 7 (by decide)

/-- C10: for every `val` below the first tier bound of `DMS` (10,000, hence
also for every `val` below 1024) and every capacity of at least 7, the output
is the plain decimal string of `val` followed by a space and `B`; in
particular `DMS(0)` is "0 B" and `DMS(1023)` is "1023 B". -/
theorem DMS_below_first_bound (buf : List Char) (len val : ℕ) (hval : val < 10000)
    (hlen : 7 ≤ len) :
    cstr (DMS buf len val) = (Nat.repr val).toList ++ [' ', 'B'] ∧
    cstr (DMS buf len 0) = ['0', ' ', 'B'] ∧
    cstr (DMS buf len 1023) = ['1', '0', '2', '3', ' ', 'B'] := by
  refine ⟨cstr_DMS_first_tier buf len val hval hlen, ?_, ?_⟩
  · rw [cstr_DMS_first_tier buf len 0 (by norm_num) hlen]; decide
  · rw [cstr_DMS_first_tier buf len 1023 (by norm_num) hlen]; decide

theorem DMS_below_first_bound_witness :
    cstr (DMS (List.replicate 7 NUL) 7 1023) = (Nat.repr 1023).toList ++ [' ', 'B'] :=
  (DMS_below_first_bound (List.replicate 7 NUL) 7 1023 (by decide) (by decide)).1


/-! ## `DTD` -/

theorem DTD_eq (int_buf buf : List Char) (len cur_ms event_ms : ℕ) :
    DTD int_buf buf len cur_ms event_ms =
      snprintf
        (if event_ms = 0 then
          snprintf buf len ['n', 'o', 'n', 'e', ' ', 's', 'e', 'e', 'n', ' ', 'y', 'e', 't']
        else buf)
        len (DTD_text int_buf (u64_sub cur_ms event_ms)) := rfl

theorem DTD_text_no_nul (int_buf : List Char) (delta : ℕ) :
    ∀ a ∈ DTD_text int_buf delta, a ≠ NUL := by
  unfold DTD_text
  exact no_nul_append _ _ (no_nul_append _ _ (no_nul_append _ _ (no_nul_append _ _
    (no_nul_append _ _ (no_nul_append _ _ (no_nul_append _ _ (cstr_no_nul _) (by decide))
    (fmt_d_no_nul _)) (by decide)) (fmt_d_no_nul _)) (by decide)) (fmt_d_no_nul _))
    (by decide)

/-- The C string `DTD` leaves is its text cut to the capacity, whatever
`event_ms` is. -/
theorem cstr_DTD (int_buf buf : List Char) (len cur_ms event_ms : ℕ) (hlen : 1 ≤ len) :
    cstr (DTD int_buf buf len cur_ms event_ms) =
      (DTD_text int_buf (u64_sub cur_ms event_ms)).take (len - 1) := by
  rw [DTD_eq, cstr_snprintf _ len _ hlen (DTD_text_no_nul _ _)]

theorem u64_sub_of_le (a b : ℕ) (h : b ≤ a) (ha : a < 2 ^ 64) : u64_sub a b = a - b := by
  unfold u64_sub
  have h1 : ((a : ℤ) - (b : ℤ)) = ((a - b : ℕ) : ℤ) := by omega
  rw [h1]
  have h2 : ((a - b : ℕ) : ℤ) % 2 ^ 64 = ((a - b : ℕ) : ℤ) := by
    apply Int.emod_eq_of_lt <;> omega
  rw [h2]; simp

theorem to_s32_of_lt (n : ℕ) (h : n < 2 ^ 31) : to_s32 n = (n : ℤ) := by
  unfold to_s32
  have h1 : n % 2 ^ 32 = n := Nat.mod_eq_of_lt (by omega)
  rw [h1, if_pos h]

theorem s32_to_u64_natCast (n : ℕ) (h : n < 2 ^ 64) : s32_to_u64 (n : ℤ) = n := by
  unfold s32_to_u64
  have h2 : (n : ℤ) % 2 ^ 64 = (n : ℤ) := by
    apply Int.emod_eq_of_lt <;> omega
  rw [h2]; simp

theorem fmt_d_natCast (n : ℕ) : fmt_d (n : ℤ) = Nat.toDigits 10 n := by
  unfold fmt_d
  rw [if_neg (by omega)]
  simp

theorem DTD_t_h_eq (delta : ℕ) : DTD_t_h delta = ((delta / 3600000 % 24 : ℕ) : ℤ) := by
  unfold DTD_t_h
  rw [to_s32_of_lt _ (by omega)]
  congr 2
  omega

theorem DTD_t_m_eq (delta : ℕ) : DTD_t_m delta = ((delta / 60000 % 60 : ℕ) : ℤ) := by
  unfold DTD_t_m
  rw [to_s32_of_lt _ (by omega)]
  congr 2
  omega

theorem DTD_t_s_eq (delta : ℕ) : DTD_t_s delta = ((delta / 1000 % 60 : ℕ) : ℤ) := by
  unfold DTD_t_s
  rw [to_s32_of_lt _ (by omega)]

theorem DTD_t_d_eq (delta : ℕ) (h : delta / 86400000 < 2 ^ 31) :
    DTD_t_d delta = ((delta / 86400000 : ℕ) : ℤ) := by
  unfold DTD_t_d
  have e : delta / 1000 / 60 / 60 / 24 = delta / 86400000 := by omega
  rw [e, to_s32_of_lt _ h]

/-- The text of `DTD` with the three small fields evaluated. -/
theorem DTD_text_eq (int_buf : List Char) (delta : ℕ) :
    DTD_text int_buf delta =
      DI_text (s32_to_u64 (DTD_t_d delta)) ++ [' ', 'd', 'a', 'y', 's', ',', ' '] ++
        Nat.toDigits 10 (delta / 3600000 % 24) ++ [' ', 'h', 'r', 's', ',', ' '] ++
        Nat.toDigits 10 (delta / 60000 % 60) ++ [' ', 'm', 'i', 'n', ',', ' '] ++
        Nat.toDigits 10 (delta / 1000 % 60) ++ [' ', 's', 'e', 'c'] := by
  unfold DTD_text
  rw [cstr_DI_of_le int_buf 16 _ (by norm_num), DTD_t_h_eq, DTD_t_m_eq, DTD_t_s_eq,
    fmt_d_natCast, fmt_d_natCast, fmt_d_natCast]

theorem DTD_text_length (int_buf : List Char) (delta : ℕ) :
    (DTD_text int_buf delta).length ≤ 34 := by
  rw [DTD_text_eq]
  have h0 := DI_text_length (s32_to_u64 (DTD_t_d delta))
  have h1 := toDigits_length_le (delta / 3600000 % 24) 2 (by omega) (by norm_num)
  have h2 := toDigits_length_le (delta / 60000 % 60) 2 (by omega) (by norm_num)
  have h3 := toDigits_length_le (delta / 1000 % 60) 2 (by omega) (by norm_num)
  simp only [List.length_append, List.length_cons, List.length_nil]
  omega


/-- C13 as stated fails when the day count does not fit an `s32`: with
`cur_ms = 2^31 * 86,400,000 + 1` and `event_ms = 1` the day count is `2^31`,
`t_d` wraps to `-2^31`, and the days field is not the output of `DI` on
`delta / 86,400,000`. -/
theorem DTD_days_wrap_at_two_pow_31 :
    cstr (DTD (List.replicate 16 NUL) (List.replicate 64 NUL) 64 185542587187200001 1) ≠
      cstr (DI (List.replicate 16 NUL) 16 ((185542587187200001 - 1) / 86400000)) ++
        [' ', 'd', 'a', 'y', 's', ',', ' '] ++
        (Nat.repr ((185542587187200001 - 1) / 3600000 % 24)).toList ++
        [' ', 'h', 'r', 's', ',', ' '] ++
        (Nat.repr ((185542587187200001 - 1) / 60000 % 60)).toList ++
        [' ', 'm', 'i', 'n', ',', ' '] ++
        (Nat.repr ((185542587187200001 - 1) / 1000 % 60)).toList ++ [' ', 's', 'e', 'c'] := by
  have hsub : u64_sub 185542587187200001 1 = 185542587187200000 :=
    u64_sub_of_le _ _ (by norm_num) (by norm_num)
  have hd : s32_to_u64 (DTD_t_d 185542587187200000) = 18446744071562067968 := by
    unfold DTD_t_d to_s32 s32_to_u64
    norm_num
    rfl
  obtain ⟨a, r, e, ha⟩ := DI_text_head 2147483648 (by norm_num)
  rw [cstr_DTD _ _ _ _ _ (by norm_num), hsub, DTD_text_eq, hd, DI_text_of_ge _ (by norm_num),
    cstr_DI_of_le _ 16 _ (by norm_num),
    show (185542587187200001 - 1) / 86400000 = 2147483648 by norm_num, e]
  intro h
  have h0 := congrArg List.head? h
  simp only [infty, List.cons_append, List.take_succ_cons, Nat.add_one_sub_one,
    show (63 : ℕ) = 62 + 1 by norm_num, List.head?_cons, Option.some.injEq] at h0
  exact decChars_ne_i a ha h0.symm

/-- C13 amended: for `event_ms ≠ 0`, `event_ms ≤ cur_ms < 2^64` and a day count
`delta / 86,400,000` below `2^31`, with a capacity of at least 35, `DTD` outputs
"<D> days, <h> hrs, <m> min, <s> sec" where `D` is the output of `DI` on
`delta / 86,400,000` and `h`, `m`, `s` are `(delta / 3,600,000) mod 24`,
`(delta / 60,000) mod 60`, `(delta / 1,000) mod 60` as plain decimal integers. -/
theorem DTD_composes_fields (int_buf buf : List Char) (len cur_ms event_ms : ℕ)
    (_hev : event_ms ≠ 0) (hle : event_ms ≤ cur_ms) (hcur : cur_ms < 2 ^ 64)
    (hdays : (cur_ms - event_ms) / 86400000 < 2 ^ 31) (hlen : 35 ≤ len) :
    cstr (DTD int_buf buf len cur_ms event_ms) =
      cstr (DI int_buf 16 ((cur_ms - event_ms) / 86400000)) ++
        [' ', 'd', 'a', 'y', 's', ',', ' '] ++
        (Nat.repr ((cur_ms - event_ms) / 3600000 % 24)).toList ++
        [' ', 'h', 'r', 's', ',', ' '] ++
        (Nat.repr ((cur_ms - event_ms) / 60000 % 60)).toList ++
        [' ', 'm', 'i', 'n', ',', ' '] ++
        (Nat.repr ((cur_ms - event_ms) / 1000 % 60)).toList ++ [' ', 's', 'e', 'c'] := by
  have hl := DTD_text_length int_buf (u64_sub cur_ms event_ms)
  rw [cstr_DTD _ _ _ _ _ (by omega), List.take_of_length_le (by omega),
    u64_sub_of_le _ _ hle hcur, DTD_text_eq, DTD_t_d_eq _ hdays,
    s32_to_u64_natCast _ (by omega), cstr_DI_of_le int_buf 16 _ (by norm_num)]
  rfl

theorem DTD_composes_fields_witness :
    cstr (DTD (List.replicate 16 NUL) (List.replicate 35 NUL) 35 90061001 1) =
      cstr (DI (List.replicate 16 NUL) 16 ((90061001 - 1) / 86400000)) ++
        [' ', 'd', 'a', 'y', 's', ',', ' '] ++
        (Nat.repr ((90061001 - 1) / 3600000 % 24)).toList ++
        [' ', 'h', 'r', 's', ',', ' '] ++
        (Nat.repr ((90061001 - 1) / 60000 % 60)).toList ++
        [' ', 'm', 'i', 'n', ',', ' '] ++
        (Nat.repr ((90061001 - 1) / 1000 % 60)).toList ++ [' ', 's', 'e', 'c'] :=
  DTD_composes_fields (List.replicate 16 NUL) (List.replicate 35 NUL) 35 90061001 1
    (by decide) (by decide) (by decide) (by decide) (by decide)

theorem DTD_text_90000000 (int_buf : List Char) :
    DTD_text int_buf 90000000 =
      ['1', ' ', 'd', 'a', 'y', 's', ',', ' ', '1', ' ', 'h', 'r', 's', ',', ' ', '0', ' ',
        'm', 'i', 'n', ',', ' ', '0', ' ', 's', 'e', 'c'] := by
  rw [DTD_text_eq, DTD_t_d_eq _ (by norm_num), s32_to_u64_natCast _ (by norm_num),
    DI_text_u0 _ (by norm_num)]
  decide

/-- C14 (the code at the failing input): with `event_ms = 0` and a capacity of
40 the buffer does not hold "none seen yet": the sentinel is overwritten and
`DTD(90,000,000, 0)` leaves "1 days, 1 hrs, 0 min, 0 sec". -/
theorem DTD_sentinel_overwritten :
    cstr (DTD (List.replicate 16 NUL) (List.replicate 40 NUL) 40 90000000 0) =
      ['1', ' ', 'd', 'a', 'y', 's', ',', ' ', '1', ' ', 'h', 'r', 's', ',', ' ', '0', ' ',
        'm', 'i', 'n', ',', ' ', '0', ' ', 's', 'e', 'c'] := by
  rw [cstr_DTD _ _ _ _ _ (by norm_num), u64_sub_of_le _ _ (by norm_num) (by norm_num),
    Nat.sub_zero, DTD_text_90000000]
  decide

/-- C15 as stated fails when the day count does not fit an `s32`: with
`cur_ms = 2^31 * 86,400,000` and `event_ms = 0` the day count is `2^31`, `t_d`
wraps to `-2^31`, and what `DTD` leaves is not the decomposed-delta string of
`delta = cur_ms`, whose days field is the output of `DI` on
`cur_ms / 86,400,000`. -/
theorem DTD_event_zero_days_wrap :
    cstr (DTD (List.replicate 16 NUL) (List.replicate 64 NUL) 64 185542587187200000 0) ≠
      cstr (DI (List.replicate 16 NUL) 16 (185542587187200000 / 86400000)) ++
        [' ', 'd', 'a', 'y', 's', ',', ' '] ++
        (Nat.repr (185542587187200000 / 3600000 % 24)).toList ++
        [' ', 'h', 'r', 's', ',', ' '] ++
        (Nat.repr (185542587187200000 / 60000 % 60)).toList ++
        [' ', 'm', 'i', 'n', ',', ' '] ++
        (Nat.repr (185542587187200000 / 1000 % 60)).toList ++ [' ', 's', 'e', 'c'] := by
  have hsub : u64_sub 185542587187200000 0 = 185542587187200000 := by
    rw [u64_sub_of_le _ _ (by norm_num) (by norm_num)]
  have hd : s32_to_u64 (DTD_t_d 185542587187200000) = 18446744071562067968 := by
    unfold DTD_t_d to_s32 s32_to_u64
    norm_num
    rfl
  obtain ⟨a, r, e, ha⟩ := DI_text_head 2147483648 (by norm_num)
  rw [cstr_DTD _ _ _ _ _ (by norm_num), hsub, DTD_text_eq, hd, DI_text_of_ge _ (by norm_num),
    cstr_DI_of_le _ 16 _ (by norm_num),
    show 185542587187200000 / 86400000 = 2147483648 by norm_num, e]
  intro h
  have h0 := congrArg List.head? h
  simp only [infty, List.cons_append, List.take_succ_cons, Nat.add_one_sub_one,
    show (63 : ℕ) = 62 + 1 by norm_num, List.head?_cons, Option.some.injEq] at h0
  exact decChars_ne_i a ha h0.symm

/-- C15 amended: for every `cur_ms` with a day count `cur_ms / 86,400,000`
below `2^31` and every capacity `c ≥ 1`, `DTD` called with `event_ms = 0`
leaves the decomposed-delta string computed with `delta = cur_ms`, cut to
`c - 1` characters: the output of `DI` on `cur_ms / 86,400,000`, then the
hours, minutes and seconds of `cur_ms`; the sentinel written first is
overwritten.  In particular `DTD(90,000,000, 0)` is
"1 days, 1 hrs, 0 min, 0 sec" for a capacity of at least 28. -/
theorem DTD_event_zero_decomposes (int_buf buf : List Char) (c cur_ms : ℕ) (hc : 1 ≤ c)
    (hdays : cur_ms / 86400000 < 2 ^ 31) :
    cstr (DTD int_buf buf c cur_ms 0) =
      (cstr (DI int_buf 16 (cur_ms / 86400000)) ++
        [' ', 'd', 'a', 'y', 's', ',', ' '] ++
        (Nat.repr (cur_ms / 3600000 % 24)).toList ++ [' ', 'h', 'r', 's', ',', ' '] ++
        (Nat.repr (cur_ms / 60000 % 60)).toList ++ [' ', 'm', 'i', 'n', ',', ' '] ++
        (Nat.repr (cur_ms / 1000 % 60)).toList ++ [' ', 's', 'e', 'c']).take (c - 1) ∧
    (28 ≤ c →
      cstr (DTD int_buf buf c 90000000 0) =
        ['1', ' ', 'd', 'a', 'y', 's', ',', ' ', '1', ' ', 'h', 'r', 's', ',', ' ', '0', ' ',
          'm', 'i', 'n', ',', ' ', '0', ' ', 's', 'e', 'c']) := by
  have hcur : cur_ms < 2 ^ 64 := by omega
  constructor
  · rw [cstr_DTD _ _ _ _ _ hc, u64_sub_of_le _ _ (Nat.zero_le _) hcur, Nat.sub_zero,
      DTD_text_eq, DTD_t_d_eq _ hdays, s32_to_u64_natCast _ (by omega),
      cstr_DI_of_le int_buf 16 _ (by norm_num)]
    rfl
  · intro h28
    rw [cstr_DTD _ _ _ _ _ hc, u64_sub_of_le _ _ (by norm_num) (by norm_num), Nat.sub_zero,
      DTD_text_90000000]
    exact List.take_of_length_le (by simp only [List.length_cons, List.length_nil]; omega)

theorem DTD_event_zero_decomposes_witness :
    cstr (DTD (List.replicate 16 NUL) (List.replicate 28 NUL) 28 90000000 0) =
      ['1', ' ', 'd', 'a', 'y', 's', ',', ' ', '1', ' ', 'h', 'r', 's', ',', ' ', '0', ' ',
        'm', 'i', 'n', ',', ' ', '0', ' ', 's', 'e', 'c'] :=
  (DTD_event_zero_decomposes (List.replicate 16 NUL) (List.replicate 28 NUL) 28 90000000
    (by decide) (by decide)).2 (by decide)

/-- C18: the text `DTD` produces has at most 34 characters: every capacity
`c ≥ 1` leaves its first `min L (c - 1)` characters, a capacity of 40 or more
leaves all of it, and the days field that `DI` writes into the internal
16-byte buffer is what `DI` writes with any larger capacity. -/
theorem DTD_text_at_most_34_chars (int_buf : List Char) (cur_ms event_ms : ℕ) :
    ∃ text : List Char, text.length ≤ 34 ∧
      (∀ (buf : List Char) (c : ℕ), 1 ≤ c →
        cstr (DTD int_buf buf c cur_ms event_ms) = text.take (min text.length (c - 1))) ∧
      (∀ (buf : List Char) (c : ℕ), 40 ≤ c →
        cstr (DTD int_buf buf c cur_ms event_ms) = text) ∧
      (∀ (b : List Char) (c : ℕ), 16 ≤ c →
        cstr (DI b c (s32_to_u64 (DTD_t_d (u64_sub cur_ms event_ms)))) =
          cstr (DI int_buf 16 (s32_to_u64 (DTD_t_d (u64_sub cur_ms event_ms))))) := by
  have hl := DTD_text_length int_buf (u64_sub cur_ms event_ms)
  refine ⟨DTD_text int_buf (u64_sub cur_ms event_ms), hl, ?_, ?_, ?_⟩
  · intro buf c hc
    rw [cstr_DTD _ _ _ _ _ hc]
    rcases Nat.le_total (DTD_text int_buf (u64_sub cur_ms event_ms)).length (c - 1) with h | h
    · rw [Nat.min_eq_left h, List.take_of_length_le h, List.take_of_length_le (le_refl _)]
    · rw [Nat.min_eq_right h]
  · intro buf c hc
    rw [cstr_DTD _ _ _ _ _ (by omega), List.take_of_length_le (by omega)]
  · intro b c hc
    rw [cstr_DI_of_le b c _ (by omega), cstr_DI_of_le int_buf 16 _ (by norm_num)]

/-- C19: with `delta = (cur_ms - event_ms) mod 2^64` and
`delta / 86,400,000 < 2^31`, the four fields of `DTD` satisfy `0 ≤ t_h < 24`,
`0 ≤ t_m < 60`, `0 ≤ t_s < 60` and
`t_d * 86,400,000 + t_h * 3,600,000 + t_m * 60,000 + t_s * 1,000
  = delta - delta mod 1,000`. -/
theorem DTD_fields_decompose (cur_ms event_ms : ℕ)
    (hd : u64_sub cur_ms event_ms / 86400000 < 2 ^ 31) :
    (u64_sub cur_ms event_ms : ℤ) = ((cur_ms : ℤ) - (event_ms : ℤ)) % 2 ^ 64 ∧
    0 ≤ DTD_t_h (u64_sub cur_ms event_ms) ∧ DTD_t_h (u64_sub cur_ms event_ms) < 24 ∧
    0 ≤ DTD_t_m (u64_sub cur_ms event_ms) ∧ DTD_t_m (u64_sub cur_ms event_ms) < 60 ∧
    0 ≤ DTD_t_s (u64_sub cur_ms event_ms) ∧ DTD_t_s (u64_sub cur_ms event_ms) < 60 ∧
    DTD_t_d (u64_sub cur_ms event_ms) * 86400000 + DTD_t_h (u64_sub cur_ms event_ms) * 3600000 +
        DTD_t_m (u64_sub cur_ms event_ms) * 60000 + DTD_t_s (u64_sub cur_ms event_ms) * 1000 =
      ((u64_sub cur_ms event_ms - u64_sub cur_ms event_ms % 1000 : ℕ) : ℤ) := by
  have h0 : (u64_sub cur_ms event_ms : ℤ) = ((cur_ms : ℤ) - (event_ms : ℤ)) % 2 ^ 64 := by
    unfold u64_sub
    exact Int.toNat_of_nonneg (Int.emod_nonneg _ (by norm_num))
  refine ⟨h0, ?_⟩
  generalize u64_sub cur_ms event_ms = delta at hd ⊢
  rw [DTD_t_d_eq delta hd, DTD_t_h_eq, DTD_t_m_eq, DTD_t_s_eq]
  omega

theorem DTD_fields_decompose_witness :
    DTD_t_d (u64_sub 90061001 0) * 86400000 + DTD_t_h (u64_sub 90061001 0) * 3600000 +
        DTD_t_m (u64_sub 90061001 0) * 60000 + DTD_t_s (u64_sub 90061001 0) * 1000 =
      ((u64_sub 90061001 0 - u64_sub 90061001 0 % 1000 : ℕ) : ℤ) :=
  (DTD_fields_decompose 90061001 0 (by decide)).2.2.2.2.2.2.2


/-! ## `DF` -/

theorem lit_99_995_eq : lit_99_995 = 879565321755689 / 8796093022208 := by
  unfold lit_99_995
  rw [RN_eq_of (99995 / 1000) 6 7036522574045512 (by norm_num) (by norm_num) (by norm_num)
    (by norm_num)]
  norm_num

theorem lit_999_95_eq : lit_999_95 = 4397826608778445 / 4398046511104 := by
  unfold lit_999_95
  rw [RN_eq_of (99995 / 100) 9 8795653217556890 (by norm_num) (by norm_num) (by norm_num)
    (by norm_num)]
  norm_num

/-- A binary64 value that is at least `2^e` is an integer multiple of
`2^(e-52)`. -/
theorem double_multiple (v : ℚ) (e : ℤ) (hv : RN v = v) (he : 2 ^ e ≤ v) :
    ∃ K : ℤ, v = (K : ℚ) * 2 ^ (e - 52) := by
  have hpos : 0 < v := lt_of_lt_of_le (by positivity) he
  have hle : e ≤ Int.log 2 v :=
    (Int.zpow_le_iff_le_log (by norm_num) hpos).mp (by exact_mod_cast he)
  obtain ⟨j, hj⟩ : ∃ j : ℕ, Int.log 2 v - e = j := ⟨(Int.log 2 v - e).toNat, by omega⟩
  have hexp : Int.log 2 v - 52 = (e - 52) + (j : ℤ) := by omega
  have h := RN_of_pos v hpos
  have hz : (2 : ℚ) ^ (Int.log 2 v - 52) = 2 ^ (e - 52) * 2 ^ j := by
    rw [hexp, zpow_add₀ (by norm_num), zpow_natCast]
  refine ⟨rhe (v / 2 ^ (Int.log 2 v - 52)) * 2 ^ j, ?_⟩
  push_cast
  calc v = RN v := hv.symm
    _ = (rhe (v / 2 ^ (Int.log 2 v - 52)) : ℚ) * 2 ^ (Int.log 2 v - 52) := h
    _ = (rhe (v / 2 ^ (Int.log 2 v - 52)) : ℚ) * 2 ^ j * 2 ^ (e - 52) := by
      nth_rewrite 2 [hz]; ring

/-- A binary64 value that is at least the rational `c` is at least the
smallest multiple `m * 2^(e-52)` of the unit of its binade above `c`. -/
theorem double_ge_of_ge (v c : ℚ) (e m : ℤ) (hv : RN v = v) (he : 2 ^ e ≤ c)
    (hm : (m : ℚ) - 1 < c / 2 ^ (e - 52)) (hcv : c ≤ v) : (m : ℚ) * 2 ^ (e - 52) ≤ v := by
  obtain ⟨K, hK⟩ := double_multiple v e hv (le_trans he hcv)
  have hu : (0 : ℚ) < 2 ^ (e - 52) := by positivity
  have h1 : c / 2 ^ (e - 52) ≤ (K : ℚ) := by
    rw [div_le_iff₀ hu, ← hK]; exact hcv
  have h2 : ((m - 1 : ℤ) : ℚ) < (K : ℚ) := by push_cast; linarith
  have h3 : m - 1 < K := by exact_mod_cast h2
  have h4 : (m : ℚ) ≤ (K : ℚ) := by exact_mod_cast (show m ≤ K by omega)
  rw [hK]
  exact mul_le_mul_of_nonneg_right h4 hu.le

theorem lit_999_95_le (v : ℚ) (hv : RN v = v) (h : 99995 / 100 ≤ v) : lit_999_95 ≤ v := by
  have := double_ge_of_ge v (99995 / 100) 9 8795653217556890 hv (by norm_num) (by norm_num) h
  rw [lit_999_95_eq]
  norm_num at this ⊢
  linarith

theorem lit_99_995_le (v : ℚ) (hv : RN v = v) (h : 99995 / 1000 ≤ v) : lit_99_995 ≤ v := by
  have := double_ge_of_ge v (99995 / 1000) 6 7036522574045512 hv (by norm_num) (by norm_num) h
  rw [lit_99_995_eq]
  norm_num at this ⊢
  linarith

theorem shown_natCast (p n : ℕ) : shown p (n : ℚ) = n * 10 ^ p := by
  unfold shown
  have h : |(n : ℚ)| * 10 ^ p = (((n * 10 ^ p : ℕ) : ℤ) : ℚ) := by
    rw [abs_of_nonneg (by positivity)]; push_cast; ring
  rw [h, rhe_intCast]
  exact Int.toNat_natCast _

/-- For a double from 999.95 on, `DF` falls through to `DI`. -/
theorem DF_of_ge (ub : ℕ) (buf : List Char) (len : ℕ) (v : ℚ) (hv : RN v = v)
    (h1 : 99995 / 100 ≤ v) (h2 : v < 2 ^ 64) :
    DF ub buf len (F64.finite false v) = DI buf len ⌊v⌋₊ := by
  have ha := lit_999_95_le v hv h1
  have hb : lit_99_995 ≤ v := by
    rw [lit_99_995_eq]; norm_num; linarith
  have hv0 : 0 ≤ v := by linarith
  have hfl : ⌊|v|⌋₊ < 2 ^ 64 := by
    rw [abs_of_nonneg hv0]
    exact (Nat.floor_lt hv0).mpr (by exact_mod_cast h2)
  unfold DF F64.lt F64.to_u64
  simp only [Bool.false_eq_true, if_false, decide_eq_true_eq]
  rw [if_neg (not_lt.mpr hb), if_neg (not_lt.mpr ha), if_pos hfl, abs_of_nonneg hv0]

/-- C11: for every double `v` with `999.95 ≤ v < 2^64`, `DF` leaves exactly the
buffer `DI` leaves for the integer part of `v`, for every capacity; in
particular `DF(2,000,000.0)` is "2.00M" (capacity of at least 6). -/
theorem DF_delegates_to_DI (ub : ℕ) (buf : List Char) (len : ℕ) (v : ℚ) (hv : RN v = v)
    (h1 : 99995 / 100 ≤ v) (h2 : v < 2 ^ 64) :
    DF ub buf len (F64.finite false v) = DI buf len ⌊v⌋₊ ∧
    (6 ≤ len → cstr (DF ub buf len (F64.finite false 2000000)) = ['2', '.', '0', '0', 'M']) := by
  refine ⟨DF_of_ge ub buf len v hv h1 h2, fun hlen => ?_⟩
  have hr : RN (2000000 : ℚ) = 2000000 := by exact_mod_cast RN_natCast 2000000 (by norm_num)
  have hf : ⌊(2000000 : ℚ)⌋₊ = 2000000 := by
    exact_mod_cast Nat.floor_natCast (α := ℚ) 2000000
  have hq : ((2000000 : ℕ) : ℚ) / ((1000000 : ℕ) : ℚ) = ((2 : ℕ) : ℚ) := by norm_num
  have hs : shown 2 ((2 : ℕ) : ℚ) = 200 := by rw [shown_natCast]; norm_num
  rw [DF_of_ge ub buf len _ hr (by norm_num) (by norm_num), hf, cstr_DI_of_le buf len _ hlen,
    DI_text_M2 _ (by norm_num) (by norm_num), hq, RN_natCast 2 (by norm_num),
    fmt_f_2_shape _ (by omega) (by omega), hs]
  decide

theorem DF_delegates_to_DI_witness :
    DF 0 (List.replicate 6 NUL) 6 (F64.finite false 2000000) =
      DI (List.replicate 6 NUL) 6 ⌊(2000000 : ℚ)⌋₊ :=
  (DF_delegates_to_DI 0 (List.replicate 6 NUL) 6 2000000
    (by exact_mod_cast RN_natCast 2000000 (by norm_num)) (by norm_num) (by norm_num)).1


theorem fmt_frac_2 : ∀ m : ℕ, m < 100 →
    fmt_frac 2 m = [Nat.digitChar (m / 10), Nat.digitChar (m % 10)] := by
  decide

theorem fmt_frac_1 : ∀ m : ℕ, m < 10 → fmt_frac 1 m = [Nat.digitChar m] := by
  decide

/-- The number `%.pf` shows is a nearest integer to `x * 10^p`. -/
theorem shown_err (p : ℕ) (x : ℚ) (hx : 0 ≤ x) : |(shown p x : ℚ) - x * 10 ^ p| ≤ 1 / 2 := by
  unfold shown
  rw [abs_of_nonneg hx]
  have h10 : (0 : ℚ) ≤ x * 10 ^ p := by positivity
  have h0 : (0 : ℤ) ≤ rhe (x * 10 ^ p) := le_rhe _ 0 (by push_cast; linarith)
  have hc : (((rhe (x * 10 ^ p)).toNat : ℕ) : ℚ) = ((rhe (x * 10 ^ p) : ℤ) : ℚ) := by
    have := Int.toNat_of_nonneg h0
    exact_mod_cast this
  rw [hc, abs_le]
  have := rhe_sub_le (x * 10 ^ p)
  constructor <;> linarith [this.1, this.2]

theorem nat_of_near (S : ℕ) (x : ℚ) (N : ℕ) (h : |(S : ℚ) - x| ≤ 1 / 2)
    (h1 : (N : ℚ) - 1 / 2 < x) (h2 : x < (N : ℚ) + 1 / 2) : S = N := by
  have h' := abs_le.mp h
  have a : (N : ℚ) < (S : ℚ) + 1 := by linarith [h'.1]
  have b : (S : ℚ) < (N : ℚ) + 1 := by linarith [h'.2]
  have a' : N < S + 1 := by exact_mod_cast a
  have b' : S < N + 1 := by exact_mod_cast b
  omega

theorem shown_lt_of (p : ℕ) (x : ℚ) (B : ℕ) (hx : 0 ≤ x) (h : x * 10 ^ p + 1 / 2 < B) :
    shown p x < B := by
  have := abs_le.mp (shown_err p x hx)
  have h1 : (shown p x : ℚ) < (B : ℚ) := by linarith [this.2]
  exact_mod_cast h1

/-- Below 99.995 `DF` prints its argument with two decimals. -/
theorem DF_two_decimals (ub : ℕ) (buf : List Char) (len : ℕ) (v : ℚ) (hlen : 6 ≤ len)
    (h0 : 0 ≤ v) (h1 : v < 99995 / 1000) :
    cstr (DF ub buf len (F64.finite false v)) =
      Nat.toDigits 10 (shown 2 v / 100) ++
        ['.', Nat.digitChar (shown 2 v / 10 % 10), Nat.digitChar (shown 2 v % 10)] := by
  have ha : v < lit_99_995 := by rw [lit_99_995_eq]; norm_num; linarith
  have hS : shown 2 v < 10000 := shown_lt_of 2 v 10000 h0 (by norm_num; linarith)
  have hl := toDigits_length_le (shown 2 v / 100) 2 (by omega) (by norm_num)
  have htext : fmt_f 2 v = Nat.toDigits 10 (shown 2 v / 100) ++
      ['.', Nat.digitChar (shown 2 v / 10 % 10), Nat.digitChar (shown 2 v % 10)] := by
    unfold fmt_f
    rw [if_neg (by norm_num), show (10 : ℕ) ^ 2 = 100 by norm_num,
      fmt_frac_2 _ (Nat.mod_lt _ (by norm_num))]
    have e1 : shown 2 v % 100 / 10 = shown 2 v / 10 % 10 := by omega
    have e2 : shown 2 v % 100 % 10 = shown 2 v % 10 := by omega
    rw [e1, e2]
  unfold DF F64.lt F64.fmt
  simp only [Bool.false_eq_true, if_false, decide_eq_true_eq, List.nil_append]
  rw [if_pos ha, cstr_snprintf buf len _ (by omega) (fmt_f_no_nul 2 v), htext]
  exact List.take_of_length_le (by
    simp only [List.length_append, List.length_cons, List.length_nil]; omega)

/-- From 99.995 up to 999.95 `DF` prints a double with one decimal. -/
theorem DF_one_decimal (ub : ℕ) (buf : List Char) (len : ℕ) (v : ℚ) (hlen : 6 ≤ len)
    (hv : RN v = v) (h0 : 99995 / 1000 ≤ v) (h1 : v < 99995 / 100) :
    cstr (DF ub buf len (F64.finite false v)) =
      Nat.toDigits 10 (shown 1 v / 10) ++ ['.', Nat.digitChar (shown 1 v % 10)] := by
  have ha : lit_99_995 ≤ v := lit_99_995_le v hv h0
  have hb : v < lit_999_95 := by rw [lit_999_95_eq]; norm_num; linarith
  have hv0 : 0 ≤ v := by linarith
  have hS : shown 1 v < 10000 := shown_lt_of 1 v 10000 hv0 (by norm_num; linarith)
  have hl := toDigits_length_le (shown 1 v / 10) 3 (by omega) (by norm_num)
  have htext : fmt_f 1 v =
      Nat.toDigits 10 (shown 1 v / 10) ++ ['.', Nat.digitChar (shown 1 v % 10)] := by
    unfold fmt_f
    rw [if_neg (by norm_num), show (10 : ℕ) ^ 1 = 10 by norm_num,
      fmt_frac_1 _ (Nat.mod_lt _ (by norm_num))]
  unfold DF F64.lt F64.fmt
  simp only [Bool.false_eq_true, if_false, decide_eq_true_eq, List.nil_append]
  rw [if_neg (not_lt.mpr ha), if_pos hb, cstr_snprintf buf len _ (by omega) (fmt_f_no_nul 1 v),
    htext]
  exact List.take_of_length_le (by
    simp only [List.length_append, List.length_cons, List.length_nil]; omega)

theorem lit_50_567_eq : RN (50567 / 1000) = 7116672573663871 / 140737488355328 := by
  rw [RN_eq_of (50567 / 1000) 5 7116672573663871 (by norm_num) (by norm_num) (by norm_num)
    (by norm_num)]
  norm_num

theorem lit_500_12_eq : RN (50012 / 100) = 4399102042266665 / 8796093022208 := by
  rw [RN_eq_of (50012 / 100) 8 8798204084533330 (by norm_num) (by norm_num) (by norm_num)
    (by norm_num)]
  norm_num

theorem lit_500_12_double :
    RN (4399102042266665 / 8796093022208) = 4399102042266665 / 8796093022208 := by
  rw [RN_eq_of (4399102042266665 / 8796093022208) 8 8798204084533330 (by norm_num)
    (by norm_num) (by norm_num) (by norm_num)]
  norm_num

/-- C12: for every `v` with `0 ≤ v < 99.995`, `DF` renders `v` rounded to
exactly 2 decimals (a nearest integer `N` to `100 v`, shown as `N / 100`, a
point and two digits), and for every double `v` with `99.995 ≤ v < 999.95` it
renders `v` rounded to exactly 1 decimal; in particular `DF(50.567)` is
"50.57" and `DF(500.12)` is "500.1" (capacity of at least 6). -/
theorem DF_fixed_precision (ub : ℕ) (buf : List Char) (len : ℕ) (v : ℚ) (hlen : 6 ≤ len)
    (hv : RN v = v) :
    (0 ≤ v ∧ v < 99995 / 1000 →
      ∃ N : ℕ, |(N : ℚ) - v * 100| ≤ 1 / 2 ∧
        cstr (DF ub buf len (F64.finite false v)) =
          (Nat.repr (N / 100)).toList ++
            ['.', Nat.digitChar (N / 10 % 10), Nat.digitChar (N % 10)]) ∧
    (99995 / 1000 ≤ v ∧ v < 99995 / 100 →
      ∃ N : ℕ, |(N : ℚ) - v * 10| ≤ 1 / 2 ∧
        cstr (DF ub buf len (F64.finite false v)) =
          (Nat.repr (N / 10)).toList ++ ['.', Nat.digitChar (N % 10)]) ∧
    cstr (DF ub buf len (F64.finite false (RN (50567 / 1000)))) = ['5', '0', '.', '5', '7'] ∧
    cstr (DF ub buf len (F64.finite false (RN (50012 / 100)))) =
      ['5', '0', '0', '.', '1'] := by
  refine ⟨?_, ?_, ?_, ?_⟩
  · rintro ⟨h0, h1⟩
    refine ⟨shown 2 v, ?_, DF_two_decimals ub buf len v hlen h0 h1⟩
    have := shown_err 2 v h0
    norm_num at this ⊢
    exact this
  · rintro ⟨h0, h1⟩
    refine ⟨shown 1 v, ?_, DF_one_decimal ub buf len v hlen hv h0 h1⟩
    have := shown_err 1 v (by linarith)
    norm_num at this ⊢
    exact this
  · rw [lit_50_567_eq, DF_two_decimals ub buf len _ hlen (by norm_num) (by norm_num)]
    have h3 : shown 2 (7116672573663871 / 140737488355328) = 5057 :=
      nat_of_near _ _ 5057 (shown_err 2 _ (by norm_num)) (by norm_num) (by norm_num)
    rw [h3]
    decide
  · rw [lit_500_12_eq, DF_one_decimal ub buf len _ hlen lit_500_12_double (by norm_num)
      (by norm_num)]
    have h3 : shown 1 (4399102042266665 / 8796093022208) = 5001 :=
      nat_of_near _ _ 5001 (shown_err 1 _ (by norm_num)) (by norm_num) (by norm_num)
    rw [h3]
    decide

theorem DF_fixed_precision_witness :
    cstr (DF 0 (List.replicate 6 NUL) 6 (F64.finite false (RN (50567 / 1000)))) =
      ['5', '0', '.', '5', '7'] :=
  (DF_fixed_precision 0 (List.replicate 6 NUL) 6 100 (by decide)
    (by exact_mod_cast RN_natCast 100 (by norm_num))).2.2.1


/-! ## The tier bounds of `DMS` -/

theorem bound_kB_1 :
    double_mul (int_to_double 1024) lit_99_95 = 7033355980557517 / 68719476736 := by
  rw [int_to_double_eq 1024 (by norm_num), lit_99_95_eq]
  unfold double_mul
  rw [RN_eq_of _ 16 7033355980557517 (by norm_num) (by norm_num) (by norm_num) (by norm_num)]
  norm_num

theorem bound_MB_2 :
    double_mul (int_to_double 1048576) lit_9_995 = 5626684784446013 / 536870912 := by
  rw [int_to_double_eq 1048576 (by norm_num), lit_9_995_eq]
  unfold double_mul
  rw [RN_eq_of _ 23 5626684784446013 (by norm_num) (by norm_num) (by norm_num) (by norm_num)]
  norm_num

theorem bound_MB_1 :
    double_mul (int_to_double 1048576) lit_99_95 = 7033355980557517 / 67108864 := by
  rw [int_to_double_eq 1048576 (by norm_num), lit_99_95_eq]
  unfold double_mul
  rw [RN_eq_of _ 26 7033355980557517 (by norm_num) (by norm_num) (by norm_num) (by norm_num)]
  norm_num

theorem bound_GB_2 :
    double_mul (int_to_double 1073741824) lit_9_995 = 5626684784446013 / 524288 := by
  rw [int_to_double_eq 1073741824 (by norm_num), lit_9_995_eq]
  unfold double_mul
  rw [RN_eq_of _ 33 5626684784446013 (by norm_num) (by norm_num) (by norm_num) (by norm_num)]
  norm_num

theorem bound_GB_1 :
    double_mul (int_to_double 1073741824) lit_99_95 = 7033355980557517 / 65536 := by
  rw [int_to_double_eq 1073741824 (by norm_num), lit_99_95_eq]
  unfold double_mul
  rw [RN_eq_of _ 36 7033355980557517 (by norm_num) (by norm_num) (by norm_num) (by norm_num)]
  norm_num

theorem bound_TB_2 :
    double_mul (int_to_double 1099511627776) lit_9_995 = 5626684784446013 / 512 := by
  rw [int_to_double_eq 1099511627776 (by norm_num), lit_9_995_eq]
  unfold double_mul
  rw [RN_eq_of _ 43 5626684784446013 (by norm_num) (by norm_num) (by norm_num) (by norm_num)]
  norm_num

theorem bound_TB_1 :
    double_mul (int_to_double 1099511627776) lit_99_95 = 7033355980557517 / 64 := by
  rw [int_to_double_eq 1099511627776 (by norm_num), lit_99_95_eq]
  unfold double_mul
  rw [RN_eq_of _ 46 7033355980557517 (by norm_num) (by norm_num) (by norm_num) (by norm_num)]
  norm_num

theorem rat_lt_iff (val B : ℕ) (q : ℚ) (h1 : (B : ℚ) - 1 < q) (h2 : q ≤ B) :
    (val : ℚ) < q ↔ val < B := by
  constructor
  · intro h
    have : (val : ℚ) < (B : ℚ) := lt_of_lt_of_le h h2
    exact_mod_cast this
  · intro h
    have h3 : val + 1 ≤ B := h
    have : (val : ℚ) + 1 ≤ (B : ℚ) := by exact_mod_cast h3
    linarith

theorem u64_lt_thr_iff (val B : ℕ) (thr : ℚ) (h1 : (B : ℚ) - 1 < thr) (h2 : thr ≤ B)
    (hb : B ≤ 2 ^ 53) : u64_to_double val < thr ↔ val < B := by
  unfold u64_to_double
  by_cases hv : val < 2 ^ 53
  · rw [RN_natCast val hv]; exact rat_lt_iff val B thr h1 h2
  · have h3 := RN_natCast_ge val (by omega)
    have h4 : (B : ℚ) ≤ 2 ^ 53 := by exact_mod_cast hb
    constructor
    · intro h5; linarith
    · intro h5; omega

theorem CHK_FORMAT_double_eq_frac (buf : List Char) (len val d : ℕ) (lm : ℚ) (p : ℕ)
    (s : List Char) (B : ℕ) (thr : ℚ) (h : double_mul (int_to_double d) lm = thr)
    (h1 : (B : ℚ) - 1 < thr) (h2 : thr ≤ B) (hb : B ≤ 2 ^ 53) (hd : d < 2 ^ 53) :
    CHK_FORMAT_double buf len val d lm p s =
      if val < B then some (snprintf buf len (fmt_f p (RN ((val : ℚ) / (d : ℚ))) ++ s))
      else none := by
  unfold CHK_FORMAT_double
  rw [h]
  by_cases hv : val < B
  · rw [if_pos ((u64_lt_thr_iff val B thr h1 h2 hb).mpr hv), if_pos hv,
      double_div_eq val d (by omega) hd]
  · rw [if_neg (fun hc => hv ((u64_lt_thr_iff val B thr h1 h2 hb).mp hc)), if_neg hv]


/-! ## The cascade of `DMS` -/

/-- The cascade of `DMS` with every tier bound evaluated. -/
theorem DMS_cases (buf : List Char) (len val : ℕ) :
    DMS buf len val =
      if val < 109896187196212 then snprintf buf len (DMS_text val)
      else store (strncpy buf infty (len - 1)) (len - 1) NUL := by
  unfold DMS
  rw [CHK_FORMAT_double_eq_frac buf len val 1024 lit_99_95 1 _ 102349 _ bound_kB_1
      (by norm_num) (by norm_num) (by norm_num) (by norm_num),
    CHK_FORMAT_double_eq_frac buf len val (1024 * 1024) lit_9_995 2 _ 10480518 _ bound_MB_2
      (by norm_num) (by norm_num) (by norm_num) (by norm_num),
    CHK_FORMAT_double_eq_frac buf len val (1024 * 1024) lit_99_95 1 _ 104805172 _ bound_MB_1
      (by norm_num) (by norm_num) (by norm_num) (by norm_num),
    CHK_FORMAT_double_eq_frac buf len val (1024 * 1024 * 1024) lit_9_995 2 _ 10732049531 _ bound_GB_2
      (by norm_num) (by norm_num) (by norm_num) (by norm_num),
    CHK_FORMAT_double_eq_frac buf len val (1024 * 1024 * 1024) lit_99_95 1 _ 107320495309 _ bound_GB_1
      (by norm_num) (by norm_num) (by norm_num) (by norm_num),
    CHK_FORMAT_double_eq_frac buf len val (1024 * 1024 * 1024 * 1024) lit_9_995 2 _ 10989618719622 _ bound_TB_2
      (by norm_num) (by norm_num) (by norm_num) (by norm_num),
    CHK_FORMAT_double_eq_frac buf len val (1024 * 1024 * 1024 * 1024) lit_99_95 1 _ 109896187196212 _ bound_TB_1
      (by norm_num) (by norm_num) (by norm_num) (by norm_num)]
  unfold CHK_FORMAT_u64
  simp only [ite_some_getD, Nat.reduceMul, Nat.div_one]
  by_cases h : val < 109896187196212
  · rw [if_pos h]
    unfold DMS_text
    simp only [apply_ite (snprintf buf len), h, if_true]
  · rw [if_neg h, if_neg (show ¬ val < 10000 by omega),
      if_neg (show ¬ val < 102349 by omega),
      if_neg (show ¬ val < 1024000 by omega),
      if_neg (show ¬ val < 10480518 by omega),
      if_neg (show ¬ val < 104805172 by omega),
      if_neg (show ¬ val < 1048576000 by omega),
      if_neg (show ¬ val < 10732049531 by omega),
      if_neg (show ¬ val < 107320495309 by omega),
      if_neg (show ¬ val < 1073741824000 by omega),
      if_neg (show ¬ val < 10989618719622 by omega),
      if_neg (show ¬ val < 109896187196212 by omega)]

theorem DMS_text_of_ge (val : ℕ) (h : 109896187196212 ≤ val) : DMS_text val = infty := by
  unfold DMS_text
  rw [if_neg (show ¬ val < 10000 by omega),
      if_neg (show ¬ val < 102349 by omega),
      if_neg (show ¬ val < 1024000 by omega),
      if_neg (show ¬ val < 10480518 by omega),
      if_neg (show ¬ val < 104805172 by omega),
      if_neg (show ¬ val < 1048576000 by omega),
      if_neg (show ¬ val < 10732049531 by omega),
      if_neg (show ¬ val < 107320495309 by omega),
      if_neg (show ¬ val < 1073741824000 by omega),
      if_neg (show ¬ val < 10989618719622 by omega),
      if_neg (show ¬ val < 109896187196212 by omega)]

theorem DMS_text_no_nul (val : ℕ) : ∀ a ∈ DMS_text val, a ≠ NUL := by
  unfold DMS_text
  exact (ite_no_nul _ _ _ (no_nul_append _ _ (fmt_llu_no_nul _) (by decide))
    (ite_no_nul _ _ _ (no_nul_append _ _ (fmt_f_no_nul _ _) (by decide))
    (ite_no_nul _ _ _ (no_nul_append _ _ (fmt_llu_no_nul _) (by decide))
    (ite_no_nul _ _ _ (no_nul_append _ _ (fmt_f_no_nul _ _) (by decide))
    (ite_no_nul _ _ _ (no_nul_append _ _ (fmt_f_no_nul _ _) (by decide))
    (ite_no_nul _ _ _ (no_nul_append _ _ (fmt_llu_no_nul _) (by decide))
    (ite_no_nul _ _ _ (no_nul_append _ _ (fmt_f_no_nul _ _) (by decide))
    (ite_no_nul _ _ _ (no_nul_append _ _ (fmt_f_no_nul _ _) (by decide))
    (ite_no_nul _ _ _ (no_nul_append _ _ (fmt_llu_no_nul _) (by decide))
    (ite_no_nul _ _ _ (no_nul_append _ _ (fmt_f_no_nul _ _) (by decide))
    (ite_no_nul _ _ _ (no_nul_append _ _ (fmt_f_no_nul _ _) (by decide))
    infty_no_nul)))))))))))

/-- The C string `DMS` leaves in the buffer is its text cut to the capacity. -/
theorem cstr_DMS (buf : List Char) (len val : ℕ) (hlen : 1 ≤ len) :
    cstr (DMS buf len val) = (DMS_text val).take (len - 1) := by
  rw [DMS_cases]
  by_cases h : val < 109896187196212
  · rw [if_pos h, cstr_snprintf buf len _ hlen (DMS_text_no_nul val)]
  · rw [if_neg h, cstr_store_nul, cstr_strncpy_take buf infty (len - 1) (len - 1) (le_refl _)
      infty_no_nul, DMS_text_of_ge val (by omega)]

theorem DMS_text_B0 (val : ℕ) (h2 : val < 10000) :
    DMS_text val = fmt_llu val ++ [' ', 'B'] := by
  unfold DMS_text
  rw [if_pos h2]

theorem DMS_text_kB1 (val : ℕ) (h1 : 10000 ≤ val) (h2 : val < 102349) :
    DMS_text val = fmt_f 1 (RN ((val : ℚ) / ((1024 : ℕ) : ℚ))) ++ [' ', 'k', 'B'] := by
  unfold DMS_text
  rw [if_neg (show ¬ val < 10000 by omega), if_pos h2]

theorem DMS_text_kB0 (val : ℕ) (h1 : 102349 ≤ val) (h2 : val < 1024000) :
    DMS_text val = fmt_llu (val / 1024) ++ [' ', 'k', 'B'] := by
  unfold DMS_text
  rw [if_neg (show ¬ val < 10000 by omega), if_neg (show ¬ val < 102349 by omega), if_pos h2]

theorem DMS_text_MB2 (val : ℕ) (h1 : 1024000 ≤ val) (h2 : val < 10480518) :
    DMS_text val = fmt_f 2 (RN ((val : ℚ) / ((1048576 : ℕ) : ℚ))) ++ [' ', 'M', 'B'] := by
  unfold DMS_text
  rw [if_neg (show ¬ val < 10000 by omega), if_neg (show ¬ val < 102349 by omega),
    if_neg (show ¬ val < 1024000 by omega), if_pos h2]

theorem DMS_text_MB1 (val : ℕ) (h1 : 10480518 ≤ val) (h2 : val < 104805172) :
    DMS_text val = fmt_f 1 (RN ((val : ℚ) / ((1048576 : ℕ) : ℚ))) ++ [' ', 'M', 'B'] := by
  unfold DMS_text
  rw [if_neg (show ¬ val < 10000 by omega), if_neg (show ¬ val < 102349 by omega),
    if_neg (show ¬ val < 1024000 by omega), if_neg (show ¬ val < 10480518 by omega), if_pos h2]

theorem DMS_text_MB0 (val : ℕ) (h1 : 104805172 ≤ val) (h2 : val < 1048576000) :
    DMS_text val = fmt_llu (val / 1048576) ++ [' ', 'M', 'B'] := by
  unfold DMS_text
  rw [if_neg (show ¬ val < 10000 by omega), if_neg (show ¬ val < 102349 by omega),
    if_neg (show ¬ val < 1024000 by omega), if_neg (show ¬ val < 10480518 by omega),
    if_neg (show ¬ val < 104805172 by omega), if_pos h2]

theorem DMS_text_GB2 (val : ℕ) (h1 : 1048576000 ≤ val) (h2 : val < 10732049531) :
    DMS_text val = fmt_f 2 (RN ((val : ℚ) / ((1073741824 : ℕ) : ℚ))) ++ [' ', 'G', 'B'] := by
  unfold DMS_text
  rw [if_neg (show ¬ val < 10000 by omega), if_neg (show ¬ val < 102349 by omega),
    if_neg (show ¬ val < 1024000 by omega), if_neg (show ¬ val < 10480518 by omega),
    if_neg (show ¬ val < 104805172 by omega), if_neg (show ¬ val < 1048576000 by omega),
    if_pos h2]

theorem DMS_text_GB1 (val : ℕ) (h1 : 10732049531 ≤ val) (h2 : val < 107320495309) :
    DMS_text val = fmt_f 1 (RN ((val : ℚ) / ((1073741824 : ℕ) : ℚ))) ++ [' ', 'G', 'B'] := by
  unfold DMS_text
  rw [if_neg (show ¬ val < 10000 by omega), if_neg (show ¬ val < 102349 by omega),
    if_neg (show ¬ val < 1024000 by omega), if_neg (show ¬ val < 10480518 by omega),
    if_neg (show ¬ val < 104805172 by omega), if_neg (show ¬ val < 1048576000 by omega),
    if_neg (show ¬ val < 10732049531 by omega), if_pos h2]

theorem DMS_text_GB0 (val : ℕ) (h1 : 107320495309 ≤ val) (h2 : val < 1073741824000) :
    DMS_text val = fmt_llu (val / 1073741824) ++ [' ', 'G', 'B'] := by
  unfold DMS_text
  rw [if_neg (show ¬ val < 10000 by omega), if_neg (show ¬ val < 102349 by omega),
    if_neg (show ¬ val < 1024000 by omega), if_neg (show ¬ val < 10480518 by omega),
    if_neg (show ¬ val < 104805172 by omega), if_neg (show ¬ val < 1048576000 by omega),
    if_neg (show ¬ val < 10732049531 by omega), if_neg (show ¬ val < 107320495309 by omega),
    if_pos h2]

theorem DMS_text_TB2 (val : ℕ) (h1 : 1073741824000 ≤ val) (h2 : val < 10989618719622) :
    DMS_text val = fmt_f 2 (RN ((val : ℚ) / ((1099511627776 : ℕ) : ℚ))) ++ [' ', 'T', 'B'] := by
  unfold DMS_text
  rw [if_neg (show ¬ val < 10000 by omega), if_neg (show ¬ val < 102349 by omega),
    if_neg (show ¬ val < 1024000 by omega), if_neg (show ¬ val < 10480518 by omega),
    if_neg (show ¬ val < 104805172 by omega), if_neg (show ¬ val < 1048576000 by omega),
    if_neg (show ¬ val < 10732049531 by omega), if_neg (show ¬ val < 107320495309 by omega),
    if_neg (show ¬ val < 1073741824000 by omega), if_pos h2]

theorem DMS_text_TB1 (val : ℕ) (h1 : 10989618719622 ≤ val) (h2 : val < 109896187196212) :
    DMS_text val = fmt_f 1 (RN ((val : ℚ) / ((1099511627776 : ℕ) : ℚ))) ++ [' ', 'T', 'B'] := by
  unfold DMS_text
  rw [if_neg (show ¬ val < 10000 by omega), if_neg (show ¬ val < 102349 by omega),
    if_neg (show ¬ val < 1024000 by omega), if_neg (show ¬ val < 10480518 by omega),
    if_neg (show ¬ val < 104805172 by omega), if_neg (show ¬ val < 1048576000 by omega),
    if_neg (show ¬ val < 10732049531 by omega), if_neg (show ¬ val < 107320495309 by omega),
    if_neg (show ¬ val < 1073741824000 by omega), if_neg (show ¬ val < 10989618719622 by omega),
    if_pos h2]


/-! ## One cascade for `DI` and `DMS` -/

theorem DI_text_eq_unitCascade (val : ℕ) :
    DI_text val = unitCascade 1000 [[], ['k'], ['M'], ['G'], ['T']] val := by
  have q0 : ((val : ℚ) < (10000 : ℚ)) ↔ val < 10000 :=
    rat_lt_iff val 10000 _ (by norm_num) (by norm_num)
  have q1 : ((val : ℚ) < 9995 / 100 * ((1000 : ℕ) : ℚ)) ↔ val < 99950 :=
    rat_lt_iff val 99950 _ (by norm_num) (by norm_num)
  have q2 : ((val : ℚ) < 1000 * ((1000 : ℕ) : ℚ)) ↔ val < 1000000 :=
    rat_lt_iff val 1000000 _ (by norm_num) (by norm_num)
  have q3 : ((val : ℚ) < 9995 / 1000 * ((1000 : ℕ) : ℚ) ^ 2) ↔ val < 9995000 :=
    rat_lt_iff val 9995000 _ (by norm_num) (by norm_num)
  have q4 : ((val : ℚ) < 9995 / 100 * ((1000 : ℕ) : ℚ) ^ 2) ↔ val < 99950000 :=
    rat_lt_iff val 99950000 _ (by norm_num) (by norm_num)
  have q5 : ((val : ℚ) < 1000 * ((1000 : ℕ) : ℚ) ^ 2) ↔ val < 1000000000 :=
    rat_lt_iff val 1000000000 _ (by norm_num) (by norm_num)
  have q6 : ((val : ℚ) < 9995 / 1000 * ((1000 : ℕ) : ℚ) ^ 3) ↔ val < 9995000000 :=
    rat_lt_iff val 9995000000 _ (by norm_num) (by norm_num)
  have q7 : ((val : ℚ) < 9995 / 100 * ((1000 : ℕ) : ℚ) ^ 3) ↔ val < 99950000000 :=
    rat_lt_iff val 99950000000 _ (by norm_num) (by norm_num)
  have q8 : ((val : ℚ) < 1000 * ((1000 : ℕ) : ℚ) ^ 3) ↔ val < 1000000000000 :=
    rat_lt_iff val 1000000000000 _ (by norm_num) (by norm_num)
  have q9 : ((val : ℚ) < 9995 / 1000 * ((1000 : ℕ) : ℚ) ^ 4) ↔ val < 9995000000000 :=
    rat_lt_iff val 9995000000000 _ (by norm_num) (by norm_num)
  have q10 : ((val : ℚ) < 9995 / 100 * ((1000 : ℕ) : ℚ) ^ 4) ↔ val < 99950000000000 :=
    rat_lt_iff val 99950000000000 _ (by norm_num) (by norm_num)
  unfold unitCascade unitTiers
  simp only [cascadeOf, q0, q1, q2, q3, q4, q5, q6, q7, q8, q9, q10]
  by_cases h0 : val < 10000
  · rw [DI_text_u0 val h0, if_pos h0]
    simp [UnitTier.render]
  by_cases h1 : val < 99950
  · rw [DI_text_k1 val (by omega) h1, if_neg h0, if_pos h1]
    simp [UnitTier.render, double_div_eq val 1000 (by omega) (by norm_num)]
  by_cases h2 : val < 1000000
  · rw [DI_text_k0 val (by omega) h2, if_neg h0, if_neg h1, if_pos h2]
    simp [UnitTier.render]
  by_cases h3 : val < 9995000
  · rw [DI_text_M2 val (by omega) h3, if_neg h0, if_neg h1, if_neg h2, if_pos h3]
    simp [UnitTier.render, double_div_eq val 1000000 (by omega) (by norm_num)]
  by_cases h4 : val < 99950000
  · rw [DI_text_M1 val (by omega) h4, if_neg h0, if_neg h1, if_neg h2, if_neg h3, if_pos h4]
    simp [UnitTier.render, double_div_eq val 1000000 (by omega) (by norm_num)]
  by_cases h5 : val < 1000000000
  · rw [DI_text_M0 val (by omega) h5, if_neg h0, if_neg h1, if_neg h2, if_neg h3, if_neg h4, if_pos h5]
    simp [UnitTier.render]
  by_cases h6 : val < 9995000000
  · rw [DI_text_G2 val (by omega) h6, if_neg h0, if_neg h1, if_neg h2, if_neg h3, if_neg h4, if_neg h5, if_pos h6]
    simp [UnitTier.render, double_div_eq val 1000000000 (by omega) (by norm_num)]
  by_cases h7 : val < 99950000000
  · rw [DI_text_G1 val (by omega) h7, if_neg h0, if_neg h1, if_neg h2, if_neg h3, if_neg h4, if_neg h5, if_neg h6, if_pos h7]
    simp [UnitTier.render, double_div_eq val 1000000000 (by omega) (by norm_num)]
  by_cases h8 : val < 1000000000000
  · rw [DI_text_G0 val (by omega) h8, if_neg h0, if_neg h1, if_neg h2, if_neg h3, if_neg h4, if_neg h5, if_neg h6, if_neg h7, if_pos h8]
    simp [UnitTier.render]
  by_cases h9 : val < 9995000000000
  · rw [DI_text_T2 val (by omega) h9, if_neg h0, if_neg h1, if_neg h2, if_neg h3, if_neg h4, if_neg h5, if_neg h6, if_neg h7, if_neg h8, if_pos h9]
    simp [UnitTier.render, double_div_eq val 1000000000000 (by omega) (by norm_num)]
  by_cases h10 : val < 99950000000000
  · rw [DI_text_T1 val (by omega) h10, if_neg h0, if_neg h1, if_neg h2, if_neg h3, if_neg h4, if_neg h5, if_neg h6, if_neg h7, if_neg h8, if_neg h9, if_pos h10]
    simp [UnitTier.render, double_div_eq val 1000000000000 (by omega) (by norm_num)]
  rw [DI_text_of_ge val (by omega), if_neg h0, if_neg h1, if_neg h2, if_neg h3, if_neg h4, if_neg h5, if_neg h6, if_neg h7, if_neg h8, if_neg h9, if_neg h10]

theorem DMS_text_eq_unitCascade (val : ℕ) :
    DMS_text val = unitCascade 1024 [[' ', 'B'], [' ', 'k', 'B'], [' ', 'M', 'B'], [' ', 'G', 'B'], [' ', 'T', 'B']] val := by
  have q0 : ((val : ℚ) < (10000 : ℚ)) ↔ val < 10000 :=
    rat_lt_iff val 10000 _ (by norm_num) (by norm_num)
  have q1 : ((val : ℚ) < 9995 / 100 * ((1024 : ℕ) : ℚ)) ↔ val < 102349 :=
    rat_lt_iff val 102349 _ (by norm_num) (by norm_num)
  have q2 : ((val : ℚ) < 1000 * ((1024 : ℕ) : ℚ)) ↔ val < 1024000 :=
    rat_lt_iff val 1024000 _ (by norm_num) (by norm_num)
  have q3 : ((val : ℚ) < 9995 / 1000 * ((1024 : ℕ) : ℚ) ^ 2) ↔ val < 10480518 :=
    rat_lt_iff val 10480518 _ (by norm_num) (by norm_num)
  have q4 : ((val : ℚ) < 9995 / 100 * ((1024 : ℕ) : ℚ) ^ 2) ↔ val < 104805172 :=
    rat_lt_iff val 104805172 _ (by norm_num) (by norm_num)
  have q5 : ((val : ℚ) < 1000 * ((1024 : ℕ) : ℚ) ^ 2) ↔ val < 1048576000 :=
    rat_lt_iff val 1048576000 _ (by norm_num) (by norm_num)
  have q6 : ((val : ℚ) < 9995 / 1000 * ((1024 : ℕ) : ℚ) ^ 3) ↔ val < 10732049531 :=
    rat_lt_iff val 10732049531 _ (by norm_num) (by norm_num)
  have q7 : ((val : ℚ) < 9995 / 100 * ((1024 : ℕ) : ℚ) ^ 3) ↔ val < 107320495309 :=
    rat_lt_iff val 107320495309 _ (by norm_num) (by norm_num)
  have q8 : ((val : ℚ) < 1000 * ((1024 : ℕ) : ℚ) ^ 3) ↔ val < 1073741824000 :=
    rat_lt_iff val 1073741824000 _ (by norm_num) (by norm_num)
  have q9 : ((val : ℚ) < 9995 / 1000 * ((1024 : ℕ) : ℚ) ^ 4) ↔ val < 10989618719622 :=
    rat_lt_iff val 10989618719622 _ (by norm_num) (by norm_num)
  have q10 : ((val : ℚ) < 9995 / 100 * ((1024 : ℕ) : ℚ) ^ 4) ↔ val < 109896187196212 :=
    rat_lt_iff val 109896187196212 _ (by norm_num) (by norm_num)
  unfold unitCascade unitTiers
  simp only [cascadeOf, q0, q1, q2, q3, q4, q5, q6, q7, q8, q9, q10]
  by_cases h0 : val < 10000
  · rw [DMS_text_B0 val h0, if_pos h0]
    simp [UnitTier.render]
  by_cases h1 : val < 102349
  · rw [DMS_text_kB1 val (by omega) h1, if_neg h0, if_pos h1]
    simp [UnitTier.render, double_div_eq val 1024 (by omega) (by norm_num)]
  by_cases h2 : val < 1024000
  · rw [DMS_text_kB0 val (by omega) h2, if_neg h0, if_neg h1, if_pos h2]
    simp [UnitTier.render]
  by_cases h3 : val < 10480518
  · rw [DMS_text_MB2 val (by omega) h3, if_neg h0, if_neg h1, if_neg h2, if_pos h3]
    simp [UnitTier.render, double_div_eq val 1048576 (by omega) (by norm_num)]
  by_cases h4 : val < 104805172
  · rw [DMS_text_MB1 val (by omega) h4, if_neg h0, if_neg h1, if_neg h2, if_neg h3, if_pos h4]
    simp [UnitTier.render, double_div_eq val 1048576 (by omega) (by norm_num)]
  by_cases h5 : val < 1048576000
  · rw [DMS_text_MB0 val (by omega) h5, if_neg h0, if_neg h1, if_neg h2, if_neg h3, if_neg h4, if_pos h5]
    simp [UnitTier.render]
  by_cases h6 : val < 10732049531
  · rw [DMS_text_GB2 val (by omega) h6, if_neg h0, if_neg h1, if_neg h2, if_neg h3, if_neg h4, if_neg h5, if_pos h6]
    simp [UnitTier.render, double_div_eq val 1073741824 (by omega) (by norm_num)]
  by_cases h7 : val < 107320495309
  · rw [DMS_text_GB1 val (by omega) h7, if_neg h0, if_neg h1, if_neg h2, if_neg h3, if_neg h4, if_neg h5, if_neg h6, if_pos h7]
    simp [UnitTier.render, double_div_eq val 1073741824 (by omega) (by norm_num)]
  by_cases h8 : val < 1073741824000
  · rw [DMS_text_GB0 val (by omega) h8, if_neg h0, if_neg h1, if_neg h2, if_neg h3, if_neg h4, if_neg h5, if_neg h6, if_neg h7, if_pos h8]
    simp [UnitTier.render]
  by_cases h9 : val < 10989618719622
  · rw [DMS_text_TB2 val (by omega) h9, if_neg h0, if_neg h1, if_neg h2, if_neg h3, if_neg h4, if_neg h5, if_neg h6, if_neg h7, if_neg h8, if_pos h9]
    simp [UnitTier.render, double_div_eq val 1099511627776 (by omega) (by norm_num)]
  by_cases h10 : val < 109896187196212
  · rw [DMS_text_TB1 val (by omega) h10, if_neg h0, if_neg h1, if_neg h2, if_neg h3, if_neg h4, if_neg h5, if_neg h6, if_neg h7, if_neg h8, if_neg h9, if_pos h10]
    simp [UnitTier.render, double_div_eq val 1099511627776 (by omega) (by norm_num)]
  rw [DMS_text_of_ge val (by omega), if_neg h0, if_neg h1, if_neg h2, if_neg h3, if_neg h4, if_neg h5, if_neg h6, if_neg h7, if_neg h8, if_neg h9, if_neg h10]

/-- C16: one cascade function `unitCascade`, parameterised by the base `b` and
five unit suffixes, with tier bounds 10,000; 99.95 b; 1000 b; 9.995 b^2;
99.95 b^2; 1000 b^2; ... ; 99.95 b^4: for every `val` and every capacity
`c ≥ 1`, `DI` leaves the cascade for `b = 1000` and suffixes "", "k", "M", "G",
"T", `DMS` leaves the cascade for `b = 1024` and suffixes " B", " kB", " MB",
" GB", " TB" (each cut to `c - 1` characters), and the two overflow branches
leave the same string. -/
theorem DI_DMS_share_one_cascade (buf : List Char) (c val : ℕ) (hc : 1 ≤ c) :
    cstr (DI buf c val) = (unitCascade 1000 [[], ['k'], ['M'], ['G'], ['T']] val).take (c - 1) ∧
    cstr (DMS buf c val) =
      (unitCascade 1024 [[' ', 'B'], [' ', 'k', 'B'], [' ', 'M', 'B'], [' ', 'G', 'B'], [' ', 'T', 'B']]
        val).take (c - 1) ∧
    cstr (store (strncpy buf infty c) (c - 1) NUL) =
      cstr (store (strncpy buf infty (c - 1)) (c - 1) NUL) := by
  refine ⟨?_, ?_, ?_⟩
  · rw [cstr_DI buf c val hc, DI_text_eq_unitCascade]
  · rw [cstr_DMS buf c val hc, DMS_text_eq_unitCascade]
  · rw [cstr_store_nul, cstr_store_nul,
      cstr_strncpy_take buf infty c (c - 1) (by omega) infty_no_nul,
      cstr_strncpy_take buf infty (c - 1) (c - 1) (le_refl _) infty_no_nul]

theorem DI_DMS_share_one_cascade_witness :
    cstr (DMS (List.replicate 8 NUL) 8 123456789) =
      (unitCascade 1024 [[' ', 'B'], [' ', 'k', 'B'], [' ', 'M', 'B'], [' ', 'G', 'B'], [' ', 'T', 'B']]
        123456789).take (8 - 1) :=
  (DI_DMS_share_one_cascade (List.replicate 8 NUL) 8 123456789 (by decide)).2.1


/-! ## The fractional tiers of `DMS` below their stated range -/

theorem RN_625_64 : RN (625 / 64) = 625 / 64 := by
  rw [RN_eq_of (625 / 64) 3 (625 * 2 ^ 43) (by norm_num) (by norm_num) (by norm_num)
    (by norm_num)]
  norm_num

theorem RN_125_128 : RN (125 / 128) = 125 / 128 := by
  rw [RN_eq_of (125 / 128) (-1) (125 * 2 ^ 46) (by norm_num) (by norm_num) (by norm_num)
    (by norm_num)]
  norm_num

/-- C17 (the code at two failing inputs): `DMS(10,000)` is rendered by the
1-decimal kB tier as "9.8 kB", below the "10.0k - 99.9k" of the comment of
that tier, and `DMS(1,024,000)` by the 2-decimal MB tier as "0.98 MB", below
the "1.00M - 9.99M" of its comment. -/
theorem DMS_fraction_below_stated_range :
    cstr (DMS (List.replicate 16 NUL) 16 10000) = ['9', '.', '8', ' ', 'k', 'B'] ∧
    cstr (DMS (List.replicate 16 NUL) 16 1024000) = ['0', '.', '9', '8', ' ', 'M', 'B'] := by
  constructor
  · have hq : ((10000 : ℕ) : ℚ) / ((1024 : ℕ) : ℚ) = 625 / 64 := by norm_num
    have hs : shown 1 (625 / 64) = 98 :=
      nat_of_near _ _ 98 (shown_err 1 _ (by norm_num)) (by norm_num) (by norm_num)
    rw [cstr_DMS _ _ _ (by norm_num), DMS_text_kB1 10000 (by norm_num) (by norm_num), hq,
      RN_625_64]
    unfold fmt_f
    rw [hs]
    decide
  · have hq : ((1024000 : ℕ) : ℚ) / ((1048576 : ℕ) : ℚ) = 125 / 128 := by norm_num
    have hs : shown 2 (125 / 128) = 98 :=
      nat_of_near _ _ 98 (shown_err 2 _ (by norm_num)) (by norm_num) (by norm_num)
    rw [cstr_DMS _ _ _ (by norm_num), DMS_text_MB2 1024000 (by norm_num) (by norm_num), hq,
      RN_125_128]
    unfold fmt_f
    rw [hs]
    decide

/-! ## The error of the number `DI` displays -/

/-- The number a fractional tier shows is a nearest multiple of `10^-p` to the
exact quotient `val / d`: the rounding of the `double` quotient is too small to
move it across a half unit. -/
theorem shown_nearest_exact (p val d : ℕ) (E : ℤ) (hd : 0 < d) (hval : 0 < val)
    (hE : (val : ℚ) / d < 2 ^ (E + 1))
    (hsmall : (10 : ℚ) ^ p * 2 ^ (E - 53) * (2 * d) < 1) :
    |(shown p (RN ((val : ℚ) / (d : ℚ))) : ℚ) * d - val * 10 ^ p| ≤ (d : ℚ) / 2 := by
  have hdq : (0 : ℚ) < d := by exact_mod_cast hd
  have hvq : (0 : ℚ) < val := by exact_mod_cast hval
  have hv : (0 : ℚ) < (val : ℚ) / d := div_pos hvq hdq
  have h10 : (0 : ℚ) < 10 ^ p := by positivity
  have herr := abs_le.mp (RN_sub_le _ E hv hE)
  have hsh := abs_le.mp (shown_err p (RN ((val : ℚ) / (d : ℚ))) (RN_pos _ hv).le)
  have hvd : (val : ℚ) / d * d = val := by field_simp
  set S := shown p (RN ((val : ℚ) / (d : ℚ))) with hS
  set y := RN ((val : ℚ) / (d : ℚ)) with hy
  have e1 : (0 : ℚ) ≤ 2 ^ (E - 53) := by positivity
  -- the doubled difference is an integer of absolute value below d + 1
  have hZ : (((2 * (S : ℤ) * d - 2 * val * 10 ^ p : ℤ)) : ℚ) =
      2 * d * ((S : ℚ) - (val : ℚ) / d * 10 ^ p) := by
    push_cast
    field_simp
    ring
  have hlt : |(((2 * (S : ℤ) * d - 2 * val * 10 ^ p : ℤ)) : ℚ)| < (((d : ℤ) + 1 : ℤ) : ℚ) := by
    rw [hZ, abs_lt]
    push_cast
    have a1 : (S : ℚ) - (val : ℚ) / d * 10 ^ p ≤ 1 / 2 + 2 ^ (E - 53) * 10 ^ p := by
      have : y * 10 ^ p - (val : ℚ) / d * 10 ^ p ≤ 2 ^ (E - 53) * 10 ^ p := by
        rw [← sub_mul]; exact mul_le_mul_of_nonneg_right herr.2 h10.le
      linarith [hsh.2]
    have a2 : -(1 / 2 + 2 ^ (E - 53) * 10 ^ p) ≤ (S : ℚ) - (val : ℚ) / d * 10 ^ p := by
      have : -(2 ^ (E - 53) * 10 ^ p) ≤ y * 10 ^ p - (val : ℚ) / d * 10 ^ p := by
        rw [← sub_mul, ← neg_mul]; exact mul_le_mul_of_nonneg_right herr.1 h10.le
      linarith [hsh.1]
    have b1 : 2 * (d : ℚ) * (1 / 2 + 2 ^ (E - 53) * 10 ^ p) < d + 1 := by nlinarith
    constructor
    · have := mul_le_mul_of_nonneg_left a2 (show (0 : ℚ) ≤ 2 * d by positivity)
      linarith
    · have := mul_le_mul_of_nonneg_left a1 (show (0 : ℚ) ≤ 2 * d by positivity)
      linarith
  have hlt' : |(2 * (S : ℤ) * d - 2 * val * 10 ^ p : ℤ)| < (d : ℤ) + 1 := by
    have : ((|(2 * (S : ℤ) * d - 2 * val * 10 ^ p : ℤ)| : ℤ) : ℚ) < (((d : ℤ) + 1 : ℤ) : ℚ) := by
      rw [Int.cast_abs]; exact hlt
    exact_mod_cast this
  have hle : |(2 * (S : ℤ) * d - 2 * val * 10 ^ p : ℤ)| ≤ (d : ℤ) := by omega
  have hleq : |(((2 * (S : ℤ) * d - 2 * val * 10 ^ p : ℤ)) : ℚ)| ≤ (d : ℚ) := by
    rw [← Int.cast_abs]; exact_mod_cast hle
  have hfin : (S : ℚ) * d - val * 10 ^ p =
      (((2 * (S : ℤ) * d - 2 * val * 10 ^ p : ℤ)) : ℚ) / 2 := by
    push_cast; ring
  rw [hfin, abs_div, abs_of_pos (show (0 : ℚ) < 2 by norm_num)]
  exact div_le_div_of_nonneg_right hleq (by norm_num)


/-- A 2-decimal tier prints digits `a.bc` whose value is within half a unit of
the last digit of `val / d`. -/
theorem frac2_display (val d : ℕ) (hd : 0 < d) (hd2 : d ≤ 10 ^ 12) (hlo : d ≤ val)
    (hhi : 1000 * val + 100 ≤ 9995 * d) :
    ∃ a b c : ℕ, a ≤ 9 ∧ b ≤ 9 ∧ c ≤ 9 ∧
      fmt_f 2 (RN ((val : ℚ) / (d : ℚ))) =
        [Nat.digitChar a, '.', Nat.digitChar b, Nat.digitChar c] ∧
      |(val : ℚ) - ((100 * a + 10 * b + c : ℕ) : ℚ) / 10 ^ 2 * d| ≤ (d : ℚ) / (2 * 10 ^ 2) := by
  obtain ⟨h1, h2⟩ := tier2_shown val d hd (by norm_num at hd2 ⊢; omega) hlo hhi
  have hdq : (0 : ℚ) < d := by exact_mod_cast hd
  have hd2q : (d : ℚ) ≤ 10 ^ 12 := by exact_mod_cast hd2
  have hhiq : 1000 * (val : ℚ) + 100 ≤ 9995 * d := by exact_mod_cast hhi
  have hE : (val : ℚ) / d < 2 ^ ((3 : ℤ) + 1) := by
    rw [div_lt_iff₀ hdq]; norm_num; linarith
  have hsmall : (10 : ℚ) ^ 2 * 2 ^ ((3 : ℤ) - 53) * (2 * d) < 1 := by
    have e2 : (2 : ℚ) ^ ((3 : ℤ) - 53) = 1 / 2 ^ 50 := by
      rw [show (3 : ℤ) - 53 = -50 by norm_num, zpow_neg]; norm_num
    rw [e2]; norm_num; linarith
  have hn := abs_le.mp (shown_nearest_exact 2 val d 3 hd (by omega) hE hsmall)
  refine ⟨_, _, _, by omega, by omega, by omega, fmt_f_2_shape _ h1 h2, ?_⟩
  have hS : 100 * (shown 2 (RN ((val : ℚ) / (d : ℚ))) / 100) +
      10 * (shown 2 (RN ((val : ℚ) / (d : ℚ))) / 10 % 10) +
      shown 2 (RN ((val : ℚ) / (d : ℚ))) % 10 = shown 2 (RN ((val : ℚ) / (d : ℚ))) := by omega
  rw [hS, abs_le]
  constructor
  · have : (shown 2 (RN ((val : ℚ) / (d : ℚ))) : ℚ) / 10 ^ 2 * d =
        (shown 2 (RN ((val : ℚ) / (d : ℚ))) : ℚ) * d / 100 := by ring
    rw [this]
    have h3 : (d : ℚ) / (2 * 10 ^ 2) = (d : ℚ) / 2 / 100 := by ring
    rw [h3]
    linarith [hn.1, hn.2]
  · have : (shown 2 (RN ((val : ℚ) / (d : ℚ))) : ℚ) / 10 ^ 2 * d =
        (shown 2 (RN ((val : ℚ) / (d : ℚ))) : ℚ) * d / 100 := by ring
    rw [this]
    have h3 : (d : ℚ) / (2 * 10 ^ 2) = (d : ℚ) / 2 / 100 := by ring
    rw [h3]
    linarith [hn.1, hn.2]

/-- A 1-decimal tier prints digits `ab.c` whose value is within half a unit of
the last digit of `val / d`. -/
theorem frac1_display (val d : ℕ) (hd : 0 < d) (hd2 : d ≤ 10 ^ 12)
    (hlo : 9995 * d ≤ 1000 * val) (hhi : 100 * val + 20 ≤ 9995 * d) :
    ∃ a b c : ℕ, a ≤ 9 ∧ b ≤ 9 ∧ c ≤ 9 ∧
      fmt_f 1 (RN ((val : ℚ) / (d : ℚ))) =
        [Nat.digitChar a, Nat.digitChar b, '.', Nat.digitChar c] ∧
      |(val : ℚ) - ((100 * a + 10 * b + c : ℕ) : ℚ) / 10 ^ 1 * d| ≤ (d : ℚ) / (2 * 10 ^ 1) := by
  obtain ⟨h1, h2⟩ := tier1_shown val d hd (by norm_num at hd2 ⊢; omega) hlo hhi
  have hdq : (0 : ℚ) < d := by exact_mod_cast hd
  have hd2q : (d : ℚ) ≤ 10 ^ 12 := by exact_mod_cast hd2
  have hhiq : 100 * (val : ℚ) + 20 ≤ 9995 * d := by exact_mod_cast hhi
  have hE : (val : ℚ) / d < 2 ^ ((6 : ℤ) + 1) := by
    rw [div_lt_iff₀ hdq]; norm_num; linarith
  have hsmall : (10 : ℚ) ^ 1 * 2 ^ ((6 : ℤ) - 53) * (2 * d) < 1 := by
    have e2 : (2 : ℚ) ^ ((6 : ℤ) - 53) = 1 / 2 ^ 47 := by
      rw [show (6 : ℤ) - 53 = -47 by norm_num, zpow_neg]; norm_num
    rw [e2]; norm_num; linarith
  have hn := abs_le.mp (shown_nearest_exact 1 val d 6 hd (by omega) hE hsmall)
  refine ⟨_, _, _, by omega, by omega, by omega, fmt_f_1_shape _ h1 h2, ?_⟩
  have hS : 100 * (shown 1 (RN ((val : ℚ) / (d : ℚ))) / 100) +
      10 * (shown 1 (RN ((val : ℚ) / (d : ℚ))) / 10 % 10) +
      shown 1 (RN ((val : ℚ) / (d : ℚ))) % 10 = shown 1 (RN ((val : ℚ) / (d : ℚ))) := by omega
  rw [hS, abs_le]
  constructor
  · have : (shown 1 (RN ((val : ℚ) / (d : ℚ))) : ℚ) / 10 ^ 1 * d =
        (shown 1 (RN ((val : ℚ) / (d : ℚ))) : ℚ) * d / 10 := by ring
    rw [this]
    have h3 : (d : ℚ) / (2 * 10 ^ 1) = (d : ℚ) / 2 / 10 := by ring
    rw [h3]
    linarith [hn.1, hn.2]
  · have : (shown 1 (RN ((val : ℚ) / (d : ℚ))) : ℚ) / 10 ^ 1 * d =
        (shown 1 (RN ((val : ℚ) / (d : ℚ))) : ℚ) * d / 10 := by ring
    rw [this]
    have h3 : (d : ℚ) / (2 * 10 ^ 1) = (d : ℚ) / 2 / 10 := by ring
    rw [h3]
    linarith [hn.1, hn.2]

/-- C20: for every `val < 99,950,000,000,000` the number `DI` displays, times
the divisor `d` of the selected tier, is within one unit of the last displayed
digit of `val`.  Below 10,000 and in the integer tiers the output is the
decimal string of `N = val / d` (plus suffix) with `0 ≤ val - N d < d`; in a
tier with `p` decimals the output shows `N = (100 a + 10 b + c) / 10^p` with
`|val - N d| ≤ d / (2 * 10^p)`. -/
theorem DI_display_error (buf : List Char) (len val : ℕ) (hlen : 6 ≤ len) :
    (val < 10000 →
      ∃ N : ℕ, cstr (DI buf len val) = (Nat.repr N).toList ∧ N * 1 ≤ val ∧ val - N * 1 < 1) ∧
    (∀ (d : ℕ) (s : Char),
      (99950 ≤ val ∧ val < 1000000 ∧ d = 1000 ∧ s = 'k') ∨
      (99950000 ≤ val ∧ val < 1000000000 ∧ d = 1000000 ∧ s = 'M') ∨
      (99950000000 ≤ val ∧ val < 1000000000000 ∧ d = 1000000000 ∧ s = 'G') →
      ∃ N : ℕ, cstr (DI buf len val) = (Nat.repr N).toList ++ [s] ∧
        N * d ≤ val ∧ val - N * d < d) ∧
    (∀ (d : ℕ) (s : Char),
      (1000000 ≤ val ∧ val < 9995000 ∧ d = 1000000 ∧ s = 'M') ∨
      (1000000000 ≤ val ∧ val < 9995000000 ∧ d = 1000000000 ∧ s = 'G') ∨
      (1000000000000 ≤ val ∧ val < 9995000000000 ∧ d = 1000000000000 ∧ s = 'T') →
      ∃ a b c : ℕ, a ≤ 9 ∧ b ≤ 9 ∧ c ≤ 9 ∧
        cstr (DI buf len val) =
          [Nat.digitChar a, '.', Nat.digitChar b, Nat.digitChar c, s] ∧
        |(val : ℚ) - ((100 * a + 10 * b + c : ℕ) : ℚ) / 10 ^ 2 * d| ≤
          (d : ℚ) / (2 * 10 ^ 2)) ∧
    (∀ (d : ℕ) (s : Char),
      (10000 ≤ val ∧ val < 99950 ∧ d = 1000 ∧ s = 'k') ∨
      (9995000 ≤ val ∧ val < 99950000 ∧ d = 1000000 ∧ s = 'M') ∨
      (9995000000 ≤ val ∧ val < 99950000000 ∧ d = 1000000000 ∧ s = 'G') ∨
      (9995000000000 ≤ val ∧ val < 99950000000000 ∧ d = 1000000000000 ∧ s = 'T') →
      ∃ a b c : ℕ, a ≤ 9 ∧ b ≤ 9 ∧ c ≤ 9 ∧
        cstr (DI buf len val) =
          [Nat.digitChar a, Nat.digitChar b, '.', Nat.digitChar c, s] ∧
        |(val : ℚ) - ((100 * a + 10 * b + c : ℕ) : ℚ) / 10 ^ 1 * d| ≤
          (d : ℚ) / (2 * 10 ^ 1)) := by
  rw [cstr_DI_of_le buf len val hlen]
  refine ⟨?_, ?_, ?_, ?_⟩
  · intro h
    exact ⟨val, by rw [DI_text_u0 val h]; rfl, by omega, by omega⟩
  · rintro d s (⟨h1, h2, rfl, rfl⟩ | ⟨h1, h2, rfl, rfl⟩ | ⟨h1, h2, rfl, rfl⟩)
    · exact ⟨val / 1000, by rw [DI_text_k0 val h1 h2]; rfl, by omega, by omega⟩
    · exact ⟨val / 1000000, by rw [DI_text_M0 val h1 h2]; rfl, by omega, by omega⟩
    · exact ⟨val / 1000000000, by rw [DI_text_G0 val h1 h2]; rfl, by omega, by omega⟩
  · rintro d s (⟨h1, h2, rfl, rfl⟩ | ⟨h1, h2, rfl, rfl⟩ | ⟨h1, h2, rfl, rfl⟩)
    · obtain ⟨a, b, c, ha, hb, hc, e, herr⟩ :=
        frac2_display val 1000000 (by norm_num) (by norm_num) (by omega) (by omega)
      exact ⟨a, b, c, ha, hb, hc, by rw [DI_text_M2 val h1 h2, e]; rfl, herr⟩
    · obtain ⟨a, b, c, ha, hb, hc, e, herr⟩ :=
        frac2_display val 1000000000 (by norm_num) (by norm_num) (by omega) (by omega)
      exact ⟨a, b, c, ha, hb, hc, by rw [DI_text_G2 val h1 h2, e]; rfl, herr⟩
    · obtain ⟨a, b, c, ha, hb, hc, e, herr⟩ :=
        frac2_display val 1000000000000 (by norm_num) (by norm_num) (by omega) (by omega)
      exact ⟨a, b, c, ha, hb, hc, by rw [DI_text_T2 val h1 h2, e]; rfl, herr⟩
  · rintro d s (⟨h1, h2, rfl, rfl⟩ | ⟨h1, h2, rfl, rfl⟩ | ⟨h1, h2, rfl, rfl⟩ |
      ⟨h1, h2, rfl, rfl⟩)
    · obtain ⟨a, b, c, ha, hb, hc, e, herr⟩ :=
        frac1_display val 1000 (by norm_num) (by norm_num) (by omega) (by omega)
      exact ⟨a, b, c, ha, hb, hc, by rw [DI_text_k1 val h1 h2, e]; rfl, herr⟩
    · obtain ⟨a, b, c, ha, hb, hc, e, herr⟩ :=
        frac1_display val 1000000 (by norm_num) (by norm_num) (by omega) (by omega)
      exact ⟨a, b, c, ha, hb, hc, by rw [DI_text_M1 val h1 h2, e]; rfl, herr⟩
    · obtain ⟨a, b, c, ha, hb, hc, e, herr⟩ :=
        frac1_display val 1000000000 (by norm_num) (by norm_num) (by omega) (by omega)
      exact ⟨a, b, c, ha, hb, hc, by rw [DI_text_G1 val h1 h2, e]; rfl, herr⟩
    · obtain ⟨a, b, c, ha, hb, hc, e, herr⟩ :=
        frac1_display val 1000000000000 (by norm_num) (by norm_num) (by omega) (by omega)
      exact ⟨a, b, c, ha, hb, hc, by rw [DI_text_T1 val h1 h2, e]; rfl, herr⟩

theorem DI_display_error_witness :
    ∃ N : ℕ, cstr (DI (List.replicate 6 NUL) 6 123456) = (Nat.repr N).toList ++ ['k'] ∧
      N * 1000 ≤ 123456 ∧ 123456 - N * 1000 < 1000 :=
  (DI_display_error (List.replicate 6 NUL) 6 123456 (by decide)).2.1 1000 'k'
    (Or.inl ⟨by decide, by decide, rfl, rfl⟩)

end AflMisc
